import Mathlib

/-!
Shallow embedding of the ZentryDB storage core (an embedded append-only
ledger store written in Rust) and verification of its specification claims.

Conventions of the embedding:
* machine bytes are `Nat` values in `[0, 256)`; byte buffers are `List Nat`;
* `u64`/`i64`/`f64` on-disk images are little-endian byte lists; `i64` values
  are `Int` (two's complement wrap at the codec); `f64` values are exact
  rationals `ℚ` together with an IEEE-754 bit-pattern codec that is exact on
  the dyadic rationals used by the development (floating-point rounding never
  occurs on the values any theorem touches);
* Rust `String` is Lean `String` (UTF-8 bytes at the codec boundary);
* `std::collections::hash_map::DefaultHasher` is SipHash-1-3 with zero keys,
  implemented bit-exactly below; `HashMap` is an association list whose
  `insert` replaces an existing key (iteration order is first-insertion
  order; no settled claim depends on iteration order);
* file handles: readers are (bytes, position) pairs; writers are opened by
  the ledger with `OpenOptions::append(true)` (db.rs), so with `O_APPEND`
  every write lands at end of file regardless of prior seeks — the writer
  model appends unconditionally; buffered-writer flushing is abstracted away
  (writes are immediately visible to readers).
-/

namespace ZentryDB

/-! ## Bytes and little-endian integers -/

/-- Little-endian byte image of `n`, `width` bytes wide (truncating). -/
def leBytes (width n : Nat) : List Nat :=
  (List.range width).map (fun i => n / 256 ^ i % 256)

/-- Read a little-endian byte list back to a natural number. -/
def fromLe (l : List Nat) : Nat :=
  l.foldr (fun b acc => b + 256 * acc) 0

/-- `u64::to_le_bytes` / `usize::to_le_bytes` (64-bit platform). -/
def u64Le (n : Nat) : List Nat := leBytes 8 (n % 2 ^ 64)

/-- `i64::to_le_bytes`: two's-complement image of a signed 64-bit value. -/
def i64Le (t : Int) : List Nat := leBytes 8 (t.emod (2 ^ 64)).toNat

/-- `i64::from_le_bytes` composed with interpreting the result as signed. -/
def i64OfLe (l : List Nat) : Int :=
  let n := fromLe l
  if n < 2 ^ 63 then (n : Int) else (n : Int) - 2 ^ 64

/-! ## UTF-8 -/

/-- UTF-8 encoding of one unicode scalar value (as `str::as_bytes` sees it). -/
def utf8Char (n : Nat) : List Nat :=
  if n < 0x80 then [n]
  else if n < 0x800 then [0xC0 ||| (n >>> 6), 0x80 ||| (n &&& 0x3F)]
  else if n < 0x10000 then
    [0xE0 ||| (n >>> 12), 0x80 ||| ((n >>> 6) &&& 0x3F), 0x80 ||| (n &&& 0x3F)]
  else
    [0xF0 ||| (n >>> 18), 0x80 ||| ((n >>> 12) &&& 0x3F),
     0x80 ||| ((n >>> 6) &&& 0x3F), 0x80 ||| (n &&& 0x3F)]

/-- `String::as_bytes`. -/
def utf8Bytes (s : String) : List Nat :=
  s.data.flatMap (fun c => utf8Char c.toNat)

/-- Decode one UTF-8 scalar from the head of a byte list (strict validation:
continuation bytes, overlong forms and surrogates are rejected, matching
`String::from_utf8`). Returns the scalar and the rest. -/
def utf8DecodeChar : List Nat → Option (Nat × List Nat)
  | [] => none
  | b :: rest =>
    if b < 0x80 then some (b, rest)
    else if b < 0xC2 then none
    else if b < 0xE0 then
      match rest with
      | c1 :: r =>
        if 0x80 ≤ c1 ∧ c1 < 0xC0 then
          some (((b &&& 0x1F) <<< 6) ||| (c1 &&& 0x3F), r)
        else none
      | _ => none
    else if b < 0xF0 then
      match rest with
      | c1 :: c2 :: r =>
        if 0x80 ≤ c1 ∧ c1 < 0xC0 ∧ 0x80 ≤ c2 ∧ c2 < 0xC0 then
          let v := ((b &&& 0x0F) <<< 12) ||| ((c1 &&& 0x3F) <<< 6) ||| (c2 &&& 0x3F)
          if 0x800 ≤ v ∧ ¬ (0xD800 ≤ v ∧ v ≤ 0xDFFF) then some (v, r) else none
        else none
      | _ => none
    else if b < 0xF5 then
      match rest with
      | c1 :: c2 :: c3 :: r =>
        if 0x80 ≤ c1 ∧ c1 < 0xC0 ∧ 0x80 ≤ c2 ∧ c2 < 0xC0 ∧ 0x80 ≤ c3 ∧ c3 < 0xC0 then
          let v := ((b &&& 0x07) <<< 18) ||| ((c1 &&& 0x3F) <<< 12) |||
                   ((c2 &&& 0x3F) <<< 6) ||| (c3 &&& 0x3F)
          if 0x10000 ≤ v ∧ v ≤ 0x10FFFF then some (v, r) else none
        else none
      | _ => none
    else none

/-- Decode a whole byte list as UTF-8 (`String::from_utf8` as an `Option`). -/
def utf8Decode (l : List Nat) : Option (List Char) :=
  go l.length l
where
  go : Nat → List Nat → Option (List Char)
  | _, [] => some []
  | 0, _ :: _ => none
  | fuel + 1, l =>
    match utf8DecodeChar l with
    | some (v, rest) =>
      if h : v < 0xD800 ∨ 0xDFFF < v ∧ v < 0x110000 then
        (go fuel rest).map (fun cs => Char.ofNatAux v h :: cs)
      else none
    | none => none

/-- `String::from_utf8(...).unwrap_or_default()` — invalid UTF-8 decodes to
the empty string (tolerant policy of `read_length_prefixed_string`). -/
def utf8DecodeOrEmpty (l : List Nat) : String :=
  match utf8Decode l with
  | some cs => ⟨cs⟩
  | none => ""

/-! ## Strings helpers -/

/-- Naive substring test on char lists (backs Rust `str::contains`). -/
def charsHaveSub (hay needle : List Char) : Bool :=
  match hay with
  | [] => needle.isEmpty
  | _ :: t => needle.isPrefixOf hay || charsHaveSub t needle

/-- Rust `str::contains(substring)`. -/
def strHasSub (hay needle : String) : Bool :=
  charsHaveSub hay.data needle.data

/-- Character class of `str::split_whitespace` (ASCII part; the strings the
ledger parses are ASCII). -/
def isRustWs (c : Char) : Bool :=
  c == ' ' || c == '\t' || c == '\n' || c == '\r' || c == '\x0b' || c == '\x0c'

/-- Worker of `splitWs`: accumulate the current word (reversed). -/
def splitWsGo : List Char → List Char → List String
  | [], cur => if cur.isEmpty then [] else [⟨cur.reverse⟩]
  | c :: rest, cur =>
    if isRustWs c then
      (if cur.isEmpty then splitWsGo rest [] else ⟨cur.reverse⟩ :: splitWsGo rest [])
    else splitWsGo rest (c :: cur)

/-- Rust `str::split_whitespace` — split on whitespace runs, dropping
empties. -/
def splitWs (s : String) : List String := splitWsGo s.data []

/-! ## SipHash-1-3 (`DefaultHasher` with zero keys) -/

/-- Truncate to 64 bits. -/
def w64 (n : Nat) : Nat := n % 2 ^ 64

/-- 64-bit left rotation. -/
def rotl64 (a r : Nat) : Nat := w64 ((a <<< r) ||| (a >>> (64 - r)))

/-- 64-bit right rotation (`u64::rotate_right`). -/
def rotr64 (a r : Nat) : Nat := w64 ((a >>> r) ||| (a <<< (64 - r)))

/-- The four 64-bit state words of a SipHash computation. -/
structure SipState where
  v0 : Nat
  v1 : Nat
  v2 : Nat
  v3 : Nat

/-- One SipRound. -/
def sipRound (s : SipState) : SipState :=
  let v0 := w64 (s.v0 + s.v1)
  let v1 := rotl64 s.v1 13
  let v1 := v1 ^^^ v0
  let v0 := rotl64 v0 32
  let v2 := w64 (s.v2 + s.v3)
  let v3 := rotl64 s.v3 16
  let v3 := v3 ^^^ v2
  let v0 := w64 (v0 + v3)
  let v3 := rotl64 v3 21
  let v3 := v3 ^^^ v0
  let v2 := w64 (v2 + v1)
  let v1 := rotl64 v1 17
  let v1 := v1 ^^^ v2
  let v2 := rotl64 v2 32
  ⟨v0, v1, v2, v3⟩

/-- Absorb one 8-byte message word (SipHash-1-3: one compression round). -/
def sipCompress (s : SipState) (m : Nat) : SipState :=
  let s := { s with v3 := s.v3 ^^^ m }
  let s := sipRound s
  { s with v0 := s.v0 ^^^ m }

/-- Absorb all full 8-byte blocks, returning the state and the tail bytes. -/
def sipBlocks : SipState → List Nat → SipState × List Nat
  | s, b0 :: b1 :: b2 :: b3 :: b4 :: b5 :: b6 :: b7 :: rest =>
    sipBlocks (sipCompress s (fromLe [b0, b1, b2, b3, b4, b5, b6, b7])) rest
  | s, rest => (s, rest)

/-- SipHash-1-3 of a byte stream with keys `k0 = k1 = 0`, exactly the digest
`std::collections::hash_map::DefaultHasher` produces for that stream. -/
def sipHash13 (data : List Nat) : Nat :=
  let s0 : SipState := ⟨0x736f6d6570736575, 0x646f72616e646f6d,
                        0x6c7967656e657261, 0x7465646279746573⟩
  let (s, tail) := sipBlocks s0 data
  let b := w64 (((data.length % 256) <<< 56) ||| fromLe tail)
  let s := { s with v3 := s.v3 ^^^ b }
  let s := sipRound s
  let s := { s with v0 := s.v0 ^^^ b }
  let s := { s with v2 := s.v2 ^^^ 0xff }
  let s := sipRound (sipRound (sipRound s))
  s.v0 ^^^ s.v1 ^^^ s.v2 ^^^ s.v3

example : sipHash13 (utf8Bytes "IDR" ++ [0xff]) = 0x741a5ab51374b1ce := by decide

/-! ## UUIDs and the deterministic-identifier scheme (util/uuid.rs) -/

/-- A 16-byte UUID (the `uuid::Uuid` byte array). -/
structure Uuid where
  bytes : List Nat
deriving DecidableEq, Repr

/-- `Uuid::nil()`. -/
def Uuid.nil : Uuid := ⟨List.replicate 16 0⟩

/-- Hexadecimal digit. -/
def hexDigit (n : Nat) : Char :=
  if n < 10 then Char.ofNat (48 + n) else Char.ofNat (87 + n)

/-- Two-digit lowercase hex of one byte. -/
def byteHex (b : Nat) : List Char := [hexDigit (b / 16), hexDigit (b % 16)]

/-- Hyphenated lowercase display of a UUID (the `Display` impl of `Uuid`). -/
def Uuid.toStr (u : Uuid) : String :=
  let h := (u.bytes.map byteHex)
  let seg (a b : Nat) : List Char := ((h.drop a).take (b - a)).flatten
  ⟨seg 0 4 ++ '-' :: seg 4 6 ++ '-' :: seg 6 8 ++ '-' :: seg 8 10 ++ '-' :: seg 10 16⟩

/-- Byte-level assembly of `generate_deterministic_uuid` from the 64-bit
digest `hash`: first 8 bytes the digest little-endian, last 8 bytes the
digest rotated right by 32 bits, little-endian (util/uuid.rs). -/
def uuidFromHash (hash : Nat) : Uuid :=
  ⟨leBytes 8 hash ++ leBytes 8 (rotr64 hash 32)⟩

/-- The byte stream `DefaultHasher` receives when hashing a `&str` or
`String`: the UTF-8 bytes followed by a `0xFF` terminator. -/
def strHashStream (s : String) : List Nat := utf8Bytes s ++ [0xff]

/-- The byte stream `DefaultHasher` receives when hashing a `Uuid`
(a `[u8; 16]` newtype): the slice length as a little-endian `usize`
prefix, then the 16 bytes. -/
def uuidHashStream (u : Uuid) : List Nat := u64Le 16 ++ u.bytes

/-- `generate_deterministic_uuid` applied to a string key. -/
def genUuidOfStr (s : String) : Uuid := uuidFromHash (sipHash13 (strHashStream s))

/-- `generate_deterministic_uuid` applied to a `Uuid` key. -/
def genUuidOfUuid (u : Uuid) : Uuid := uuidFromHash (sipHash13 (uuidHashStream u))

example : genUuidOfStr "IDR" =
    ⟨[0xce, 0xb1, 0x74, 0x13, 0xb5, 0x5a, 0x1a, 0x74,
      0xb5, 0x5a, 0x1a, 0x74, 0xce, 0xb1, 0x74, 0x13]⟩ := by decide

/-! ## f64 model

`f64` values are exact rationals; `f64Bits`/`f64OfBits` convert between a
rational and the IEEE-754 binary64 pattern, exactly on representable values
(sign, biased exponent, 52-bit mantissa). Arithmetic on the rationals is
exact; every value any settled theorem computes with is a representable
dyadic on which exact and IEEE arithmetic agree. -/

/-- Addition on `ℚ` by smart constructor (definitionally evaluable; equal to
`+` by `qadd_eq` — the library's `Rat.add` is `@[irreducible]` and would block
`decide`). -/
def qadd (a b : ℚ) : ℚ := mkRat (a.num * b.den + b.num * a.den) (a.den * b.den)

/-- Multiplication on `ℚ` by smart constructor (equal to `*` by `qmul_eq`). -/
def qmul (a b : ℚ) : ℚ := mkRat (a.num * b.num) (a.den * b.den)

/-- Subtraction on `ℚ` by smart constructor (equal to `-` by `qsub_eq`). -/
def qsub (a b : ℚ) : ℚ := mkRat (a.num * b.den - b.num * a.den) (a.den * b.den)

/-- Inverse on `ℚ` by smart constructor (equal to `⁻¹` by `qinv_eq`). -/
def qinv (b : ℚ) : ℚ :=
  if b.num < 0 then mkRat (-(b.den : Int)) b.num.natAbs else mkRat b.den b.num.natAbs

/-- Division on `ℚ` (equal to `/` by `qdiv_eq`); `qdiv a 0 = 0` as in `Rat.div`. -/
def qdiv (a b : ℚ) : ℚ := qmul a (qinv b)

/-- `f64::abs`. -/
def qabs (a : ℚ) : ℚ := if a < 0 then -a else a

theorem qadd_eq (a b : ℚ) : qadd a b = a + b := (Rat.add_def' a b).symm

theorem qsub_eq (a b : ℚ) : qsub a b = a - b := (Rat.sub_def' a b).symm

theorem qmul_eq (a b : ℚ) : qmul a b = a * b := by
  rw [Rat.mul_def, Rat.normalize_eq_mkRat]; rfl

theorem qinv_eq (b : ℚ) : qinv b = b⁻¹ := by
  rw [Rat.inv_def', qinv]
  rcases lt_or_le b.num 0 with h | h
  · have hnum : b.num = -(b.num.natAbs : Int) := by omega
    rw [if_pos h, Rat.mkRat_eq_divInt]
    conv_rhs => rw [hnum]
    rw [Rat.divInt_neg']
  · rw [if_neg (not_lt.mpr h), Rat.mkRat_eq_divInt, Int.natAbs_of_nonneg h]

theorem qdiv_eq (a b : ℚ) : qdiv a b = a / b := by
  rw [qdiv, qmul_eq, qinv_eq, div_eq_mul_inv]

theorem qabs_eq (a : ℚ) : qabs a = |a| := by
  rw [qabs]
  rcases lt_or_le a 0 with h | h
  · rw [if_pos h, abs_of_neg h]
  · rw [if_neg (not_lt.mpr h), abs_of_nonneg h]

/-- Powers of two as rationals, for signed exponents (kept executable via
`Nat` powers, which the kernel accelerates). -/
def pow2Q (e : Int) : ℚ :=
  if 0 ≤ e then mkRat (2 ^ e.toNat) 1 else mkRat 1 (2 ^ (-e).toNat)

/-- `f64::EPSILON` = 2⁻⁵². -/
def f64Epsilon : ℚ := pow2Q (-52)

/-- Smallest `k` with `num * 2^k ≥ den` (fuel-bounded search used to locate
the binary exponent of a rational below one). -/
def expSearch : Nat → Nat → Nat → Nat
  | _, _, 0 => 0
  | num, den, fuel + 1 => if num ≥ den then 0 else expSearch (2 * num) den fuel + 1

/-- Structural (fuel-bounded) base-2 logarithm on `Nat`. -/
def log2F : Nat → Nat → Nat
  | _, 0 => 0
  | n, fuel + 1 => if n ≥ 2 then log2F (n / 2) fuel + 1 else 0

/-- Floor of the base-2 logarithm of a positive rational `num / den`. -/
def floorLog2 (num den : Nat) : Int :=
  if num ≥ den then (log2F (num / den) 1100 : Int)
  else -(expSearch num den 1100 : Int)

/-- IEEE-754 binary64 bit pattern of a rational (exact for representable
normal values and zero; other inputs are never used by this development). -/
def f64Bits (q : ℚ) : Nat :=
  if q = 0 then 0
  else
    let sign : Nat := if q < 0 then 2 ^ 63 else 0
    let a : ℚ := if q < 0 then -q else q
    let e : Int := floorLog2 a.num.toNat a.den
    let frac : ℚ := qmul (qsub (qdiv a (pow2Q e)) 1) (mkRat (2 ^ 52) 1)
    let mant : Nat := if frac.den = 1 then frac.num.toNat else 0
    sign + (e + 1023).toNat * 2 ^ 52 + mant

/-- Rational value of an IEEE-754 binary64 bit pattern (finite values; the
infinity/NaN exponent is mapped to zero and never produced here). -/
def f64OfBits (n : Nat) : ℚ :=
  let sign : ℚ := if n / 2 ^ 63 % 2 = 1 then -1 else 1
  let expo : Nat := n / 2 ^ 52 % 2 ^ 11
  let mant : Nat := n % 2 ^ 52
  if expo = 0 then qmul (qmul sign (mkRat mant 1)) (pow2Q (-1074))
  else if expo = 2047 then 0
  else qmul (qmul sign (mkRat (2 ^ 52 + mant) 1)) (pow2Q ((expo : Int) - 1075))

set_option maxRecDepth 4000

example : f64Bits 14000 = 0x40CB580000000000 := by decide
example : f64Bits 2 = 0x4000000000000000 := by decide
example : f64Bits (mkRat 1 2) = 0x3FE0000000000000 := by decide
example : f64Bits (-100) = 0xC059000000000000 := by decide
example : f64OfBits (f64Bits 14000) = 14000 := by decide
example : f64OfBits (f64Bits (mkRat 1 2)) = mkRat 1 2 := by decide

/-! ## I/O error model (std::io::Error as the code constructs them) -/

/-- `std::io::ErrorKind` values the source constructs or inspects. -/
inductive ErrKind
  | notFound
  | invalidData
  | invalidInput
  | unexpectedEof
  | other
deriving DecidableEq, Repr

/-- An `std::io::Error`: a kind plus its display message. -/
structure IoError where
  kind : ErrKind
  msg : String
deriving DecidableEq, Repr

deriving instance DecidableEq for Except

/-- Result type of the fallible operations. -/
abbrev IoResult (α : Type) := Except IoError α

/-- `BinaryReadError::DeadRecord` converted to `std::io::Error`. -/
def deadRecordErr : IoError := ⟨.other, "dead record"⟩

/-- `BinaryWriteError::TryingToTombstoneWrongRecord` converted. -/
def wrongRecordErr : IoError := ⟨.other, "trying to tombstone wrong record"⟩

/-- `read_exact` hitting end of file. -/
def eofErr : IoError := ⟨.unexpectedEof, "failed to fill whole buffer"⟩

/-- The recoverable error `ConversionGraph::from_binary` raises on an
`'H'`-tagged (or otherwise non-`'C'`-tagged) graph record. -/
def historicalErr : IoError :=
  ⟨.invalidData, "not converting historical conversion graph, will come in improvement later"⟩

/-- `TombstoneReader::is_ignorable_error`: matches on the error message. -/
def is_ignorable_error (e : IoError) : Bool :=
  strHasSub e.msg "dead record" ||
  strHasSub e.msg "not enough data" ||
  strHasSub e.msg "not converting historical conversion graph"

/-- `TombstoneReader::is_tombstone_byte` (default impl): only `0x00`. -/
def is_tombstone_byte (b : Nat) : Bool := b == 0

/-! ## Readers and writers -/

/-- A buffered reader over one record file: the file bytes plus cursor. -/
structure Rdr where
  data : List Nat
  pos : Nat
deriving Repr

/-- `read_exact` into an `n`-byte buffer: fails with `UnexpectedEof` when
fewer than `n` bytes remain (cursor position on failure is never used). -/
def readExact (n : Nat) (r : Rdr) : IoResult (List Nat × Rdr) :=
  if r.pos + n ≤ r.data.length then
    .ok ((r.data.drop r.pos).take n, ⟨r.data, r.pos + n⟩)
  else
    .error eofErr

/-- `Seek::seek(SeekFrom::Start(o))` on a reader. -/
def seekTo (o : Nat) (r : Rdr) : Rdr := ⟨r.data, o⟩

/-- A writer over one record file. The ledger opens every writer with
`OpenOptions::append(true)` (db.rs), so under `O_APPEND` each write is
appended at end of file no matter where the cursor was seeked; the model
therefore appends unconditionally and needs no cursor. -/
structure Wtr where
  data : List Nat
deriving Repr

/-- A write through the append-mode writer: bytes land at end of file. -/
def wtrWrite (w : Wtr) (bytes : List Nat) : Wtr := ⟨w.data ++ bytes⟩

/-! ## Layout catalog (storage/layout/bin_layout.rs) -/

/-- `LengthType`. -/
inductive LengthType
  | u8
  | u16
  | u32
deriving DecidableEq, Repr

/-- `BinaryField`. -/
inductive BinaryField
  | uuid (name : String)
  | u8 (name : String)
  | u32 (name : String)
  | i64 (name : String)
  | f64 (name : String)
  | lengthPrefixed (length_type : LengthType) (name : String)
deriving DecidableEq, Repr

/-- `BinaryLayout`. -/
structure BinaryLayout where
  name : String
  fields : List BinaryField

/-- `account_layout()`. -/
def account_layout : BinaryLayout :=
  ⟨"Account",
   [.uuid "id",
    .lengthPrefixed .u8 "name",
    .u8 "account_type",
    .i64 "created_at",
    .lengthPrefixed .u8 "system_id"]⟩

/-- `transaction_layout()`. -/
def transaction_layout : BinaryLayout :=
  ⟨"Transaction",
   [.uuid "id",
    .lengthPrefixed .u8 "description",
    .lengthPrefixed .u32 "metadata",
    .i64 "timestamp"]⟩

/-- `entry_layout()` — note the `amount` field is declared `F64`. -/
def entry_layout : BinaryLayout :=
  ⟨"Entry",
   [.uuid "id",
    .uuid "transaction_id",
    .uuid "account_id",
    .f64 "amount"]⟩

/-- `system_layout()`. -/
def system_layout : BinaryLayout :=
  ⟨"System",
   [.lengthPrefixed .u8 "system_id",
    .lengthPrefixed .u8 "description"]⟩

/-- `conversion_graph_layout()`. -/
def conversion_graph_layout : BinaryLayout :=
  ⟨"ConversionGraph",
   [.lengthPrefixed .u8 "graph",
    .f64 "rate",
    .i64 "rate_since"]⟩

/-! ## Record types (model/types.rs) -/

/-- `AccountType`. -/
inductive AccountType
  | asset
  | liability
  | equity
  | revenue
  | expense
deriving DecidableEq, Repr

/-- `System`: `id` (short code string) and `description`. -/
structure System where
  id : String
  description : String
deriving DecidableEq, Repr

/-- `ConversionGraph`: graph string, `f64` rate, `rate_since` timestamp
(modelled as seconds since epoch; `DateTime<Utc>` values the store writes
have second resolution). -/
structure ConversionGraph where
  graph : String
  rate : ℚ
  rate_since : Int
deriving DecidableEq, Repr

/-- `Account`. `created_at` in seconds since epoch. -/
structure Account where
  id : Uuid
  name : String
  account_type : AccountType
  created_at : Int
  system_id : String
deriving DecidableEq, Repr

/-- `Transaction`. The optional `metadata` is an opaque `serde_json::Value`,
represented by its serialized byte vector (the only operations the store
performs on it are `serde_json::to_vec` and `from_str`). -/
structure Transaction where
  id : Uuid
  description : String
  timestamp : Int
  metadata : Option (List Nat)
deriving DecidableEq, Repr

/-- `Entry`: `amount` is positive for debit, negative for credit. -/
structure Entry where
  id : Uuid
  transaction_id : Uuid
  account_id : Uuid
  amount : ℚ
deriving DecidableEq, Repr

/-- `PartialEq for System` — identity field only. -/
def System.peq (a b : System) : Bool := a.id == b.id

/-- `PartialEq for ConversionGraph` — identity field only. -/
def ConversionGraph.peq (a b : ConversionGraph) : Bool := a.graph == b.graph

/-- `PartialEq for Account` — identity field only. -/
def Account.peq (a b : Account) : Bool := a.id == b.id

/-- `PartialEq for Transaction` — identity field only. -/
def Transaction.peq (a b : Transaction) : Bool := a.id == b.id

/-- `PartialEq for Entry` — identity field only. -/
def Entry.peq (a b : Entry) : Bool := a.id == b.id

/-- `account_type_from_u8` (the `u8 → AccountType` direction of the bimap). -/
def account_type_from_u8 (byte : Nat) : Option AccountType :=
  if byte = 0 then some .asset
  else if byte = 1 then some .liability
  else if byte = 2 then some .equity
  else if byte = 3 then some .revenue
  else if byte = 4 then some .expense
  else none

/-- `account_type_to_u8` (total on the five variants). -/
def account_type_to_u8 : AccountType → Nat
  | .asset => 0
  | .liability => 1
  | .equity => 2
  | .revenue => 3
  | .expense => 4

/-! ## The two key-classification regexes and the capture regex
(classify_graph_key and ConversionGraph::from_binary, storage/binary.rs).
The matchers below are deterministic parsers equivalent to the anchored
regexes on the ASCII strings this store produces and consumes (`\w`/`\s`
are interpreted as their ASCII classes). -/

/-- Explicit bind on `Option` (the `Monad` instance indirection of
do-notation defeats kernel evaluation, so the development chains with this
function throughout). -/
def obind {α β : Type} (x : Option α) (f : α → Option β) : Option β :=
  match x with
  | some a => f a
  | none => none

/-- Regex class `\w`. -/
def isWordChar (c : Char) : Bool :=
  c.isAlpha || c.isDigit || c == '_'

/-- Regex class `\s`. -/
def isWsChar (c : Char) : Bool :=
  c == ' ' || c == '\t' || c == '\n' || c == '\r' || c == '\x0b' || c == '\x0c'

/-- Consume `\s*`. -/
def eatWs : List Char → List Char
  | [] => []
  | c :: r => if isWsChar c then eatWs r else c :: r

/-- Consume trailing word characters. -/
def wordTail : List Char → List Char
  | [] => []
  | c :: r => if isWordChar c then wordTail r else c :: r

/-- Consume `\w+` (at least one word character). -/
def eatWord : List Char → Option (List Char)
  | [] => none
  | c :: r => if isWordChar c then some (wordTail r) else none

/-- Consume the alternation `(->|<-|<->)`. Trying `"<->"` before `"<-"` is
equivalent to the regex engine's backtracking, because a leftover `'>'` can
never start the `\s*\w+` that must follow. -/
def eatArrow : List Char → Option (List Char)
  | '-' :: '>' :: r => some r
  | '<' :: '-' :: '>' :: r => some r
  | '<' :: '-' :: r => some r
  | _ => none

/-- Consume `\s*\w+\s*(->|<-|<->)\s*\w+\s*` (the body shared by both key
patterns). -/
def eatDirection (l : List Char) : Option (List Char) :=
  obind (eatWord (eatWs l)) fun l =>
  obind (eatArrow (eatWs l)) fun l =>
  obind (eatWord (eatWs l)) fun l =>
  some (eatWs l)

/-- The active-key pattern `^\s*\w+\s*(->|<-|<->)\s*\w+\s*$`. -/
def activeKeyMatch (s : String) : Bool :=
  match eatDirection s.data with
  | some rest => rest.isEmpty
  | none => false

/-- Consume exactly `n` digits. -/
def eatDigits : Nat → List Char → Option (List Char)
  | 0, l => some l
  | n + 1, l =>
    match l with
    | c :: r => if c.isDigit then eatDigits n r else none
    | [] => none

/-- Consume trailing digits. -/
def digitTail : List Char → List Char
  | [] => []
  | c :: r => if c.isDigit then digitTail r else c :: r

/-- Consume one expected character. -/
def eatChar (c : Char) : List Char → Option (List Char)
  | x :: r => if x == c then some r else none
  | [] => none

/-- Consume the optional fractional part `(?:\.\d+)?`. A `'.'` not followed
by a digit makes the whole pattern fail, because the `[+-]` that must come
next cannot match `'.'`. -/
def eatFracOpt : List Char → Option (List Char)
  | [] => some []
  | c :: r =>
    if c == '.' then
      match r with
      | [] => none
      | d :: r2 => if d.isDigit then some (digitTail r2) else none
    else some (c :: r)

/-- Consume `[+-]`. -/
def eatSignChar : List Char → Option (List Char)
  | c :: r => if c == '+' || c == '-' then some r else none
  | [] => none

/-- Consume `\d{4}-\d{2}-\d{2}T\d{2}:\d{2}:\d{2}(?:\.\d+)?[+-]\d{2}:\d{2}`
(the RFC-3339 timestamp shape of the historical-key pattern). -/
def eatStamp (l : List Char) : Option (List Char) :=
  obind (eatDigits 4 l) fun l =>
  obind (eatChar '-' l) fun l =>
  obind (eatDigits 2 l) fun l =>
  obind (eatChar '-' l) fun l =>
  obind (eatDigits 2 l) fun l =>
  obind (eatChar 'T' l) fun l =>
  obind (eatDigits 2 l) fun l =>
  obind (eatChar ':' l) fun l =>
  obind (eatDigits 2 l) fun l =>
  obind (eatChar ':' l) fun l =>
  obind (eatDigits 2 l) fun l =>
  obind (eatFracOpt l) fun l =>
  obind (eatSignChar l) fun l =>
  obind (eatDigits 2 l) fun l =>
  obind (eatChar ':' l) fun l =>
  eatDigits 2 l

/-- The historical-key pattern: timestamp, `[` direction `]`, timestamp. -/
def historicalKeyMatch (s : String) : Bool :=
  (obind (eatStamp s.data) fun l =>
   obind (eatChar '[' l) fun l =>
   obind (eatDirection l) fun l =>
   obind (eatChar ']' l) fun l =>
   eatStamp l) matches some []

/-- `classify_graph_key`. -/
def classify_graph_key (graph : ConversionGraph) : String :=
  if historicalKeyMatch graph.graph then "historical"
  else if activeKeyMatch graph.graph then "active"
  else "unknown"

/-- Chars strictly before the first `']'`, or `none` when there is none
(the lazy group of `C\[(.*?)\]`). -/
def capBeforeBracket : List Char → Option (List Char)
  | [] => none
  | c :: rest =>
    if c == ']' then some []
    else (capBeforeBracket rest).map (c :: ·)

/-- First capture of `Regex::new(r"C\[(.*?)\]")` on a string: at the first
`"C["` the engine takes the shortest run up to a closing `']'`. If no `']'`
follows the first `"C["` none follows any later one either, so no
backtracking over match starts is needed. -/
def recCapture : List Char → Option (List Char)
  | 'C' :: '[' :: rest => capBeforeBracket rest
  | _ :: t => recCapture t
  | [] => none

example : recCapture "C[USD -> IDR]".data = some "USD -> IDR".data := by decide
example : activeKeyMatch "USD -> IDR" = true := by decide
example : activeKeyMatch "USD <-> IDR" = true := by decide
example : historicalKeyMatch
    "2024-01-01T00:00:00+00:00[USD -> IDR]2024-01-02T00:00:00+00:00" = true := by decide
example : historicalKeyMatch "USD -> IDR" = false := by decide

/-! ## Binary codec (storage/binary.rs) -/

/-- Explicit bind on `IoResult` (again avoiding the `Monad` instance
indirection for the kernel's sake). -/
def ebind {α β : Type} (x : IoResult α) (f : α → IoResult β) : IoResult β :=
  match x with
  | .ok a => f a
  | .error e => .error e

/-- Sequence a write step with the rest of an encoder: on error the bytes
already written stay in the stream, exactly as with a Rust writer. -/
def wchain (pr : Wtr × IoResult Unit) (k : Wtr → Wtr × IoResult Unit) : Wtr × IoResult Unit :=
  match pr.2 with
  | .ok _ => k pr.1
  | .error e => (pr.1, .error e)

/-- Read the length prefix of a `LengthPrefixed` field. -/
def readLpLen (lt : LengthType) (r : Rdr) : IoResult (Nat × Rdr) :=
  match lt with
  | .u8 => ebind (readExact 1 r) fun pr => .ok (fromLe pr.1, pr.2)
  | .u16 => ebind (readExact 2 r) fun pr => .ok (fromLe pr.1, pr.2)
  | .u32 => ebind (readExact 4 r) fun pr => .ok (fromLe pr.1, pr.2)

/-- `read_length_prefixed_string`. -/
def read_length_prefixed_string (lt : LengthType) (r : Rdr) : IoResult (String × Rdr) :=
  ebind (readLpLen lt r) fun pr =>
  ebind (readExact pr.1 pr.2) fun pr2 =>
  .ok (utf8DecodeOrEmpty pr2.1, pr2.2)

/-- `write_length_prefixed_field`. A `U8`/`U16` prefix whose payload exceeds
the prefix range falls through to the catch-all error arm; a `U32` prefix is
written unconditionally with `len as u32`. -/
def write_length_prefixed_field (bytes : List Nat) (name : String) (lt : LengthType)
    (w : Wtr) : Wtr × IoResult Unit :=
  match lt with
  | .u8 =>
    if bytes.length ≤ 255 then (wtrWrite w ([bytes.length] ++ bytes), .ok ())
    else (w, .error ⟨.invalidData, "`" ++ name ++ "` is too long to encode"⟩)
  | .u16 =>
    if bytes.length ≤ 65535 then (wtrWrite w (leBytes 2 bytes.length ++ bytes), .ok ())
    else (w, .error ⟨.invalidData, "`" ++ name ++ "` is too long to encode"⟩)
  | .u32 => (wtrWrite w (leBytes 4 (bytes.length % 2 ^ 32) ++ bytes), .ok ())

/-- `Debug` rendering of `LengthType`. -/
def LengthType.debugFmt : LengthType → String
  | .u8 => "U8"
  | .u16 => "U16"
  | .u32 => "U32"

/-- `Debug` rendering of `BinaryField` (as interpolated into error
messages). -/
def BinaryField.debugFmt : BinaryField → String
  | .uuid n => "Uuid(\"" ++ n ++ "\")"
  | .u8 n => "U8(\"" ++ n ++ "\")"
  | .u32 n => "U32(\"" ++ n ++ "\")"
  | .i64 n => "I64(\"" ++ n ++ "\")"
  | .f64 n => "F64(\"" ++ n ++ "\")"
  | .lengthPrefixed lt n =>
    "LengthPrefixed \x7b length_type: " ++ lt.debugFmt ++ ", name: \"" ++ n ++ "\" \x7d"

/-! ### Account codec -/

/-- Loop state of `Account::from_binary` with the source's initial values. -/
structure AccountDec where
  id : Uuid := Uuid.nil
  name : String := ""
  account_type : AccountType := .asset
  created_at : Int := 0
  system_id : String := ""

/-- The field loop of `Account::from_binary` (unknown fields are silently
ignored by its `_ => {}` arm). -/
def accountDecFields (fields : List BinaryField) (acc : AccountDec) (r : Rdr) :
    IoResult (AccountDec × Rdr) :=
  match fields with
  | [] => .ok (acc, r)
  | field :: rest =>
    match field with
    | .uuid n =>
      if n == "id" then
        ebind (readExact 16 r) fun pr =>
          accountDecFields rest { acc with id := ⟨pr.1⟩ } pr.2
      else accountDecFields rest acc r
    | .lengthPrefixed lt n =>
      if n == "name" then
        ebind (read_length_prefixed_string lt r) fun pr =>
          accountDecFields rest { acc with name := pr.1 } pr.2
      else if n == "system_id" then
        ebind (read_length_prefixed_string lt r) fun pr =>
          accountDecFields rest { acc with system_id := pr.1 } pr.2
      else accountDecFields rest acc r
    | .u8 n =>
      if n == "account_type" then
        ebind (readExact 1 r) fun pr =>
          match account_type_from_u8 (pr.1.headD 0) with
          | some t => accountDecFields rest { acc with account_type := t } pr.2
          | none => .error ⟨.invalidData, "unknown account type"⟩
      else accountDecFields rest acc r
    | .i64 n =>
      if n == "created_at" then
        ebind (readExact 8 r) fun pr =>
          accountDecFields rest { acc with created_at := i64OfLe pr.1 } pr.2
      else accountDecFields rest acc r
    | _ => accountDecFields rest acc r

/-- `Account::from_binary`. -/
def Account.from_binary (r : Rdr) (layout : BinaryLayout) : IoResult (Account × Rdr) :=
  ebind (accountDecFields layout.fields {} r) fun pr =>
  .ok (⟨pr.1.id, pr.1.name, pr.1.account_type, pr.1.created_at, pr.1.system_id⟩, pr.2)

/-- `Account::skip_bytes`. -/
def Account.skip_bytes_fields (fields : List BinaryField) (r : Rdr) : IoResult Rdr :=
  match fields with
  | [] => .ok r
  | field :: rest =>
    match field with
    | .uuid _ => ebind (readExact 16 r) fun pr => Account.skip_bytes_fields rest pr.2
    | .u8 _ => ebind (readExact 1 r) fun pr => Account.skip_bytes_fields rest pr.2
    | .i64 _ => ebind (readExact 8 r) fun pr => Account.skip_bytes_fields rest pr.2
    | .lengthPrefixed lt _ =>
      ebind (read_length_prefixed_string lt r) fun pr => Account.skip_bytes_fields rest pr.2
    | _ => Account.skip_bytes_fields rest r

/-- The field loop of `Account::to_binary` (after the liveness byte). -/
def accountEncFields (a : Account) (fields : List BinaryField) (w : Wtr) : Wtr × IoResult Unit :=
  match fields with
  | [] => (w, .ok ())
  | field :: rest =>
    match field with
    | .uuid n =>
      if n == "id" then wchain (wtrWrite w a.id.bytes, .ok ()) (accountEncFields a rest)
      else (w, .error ⟨.invalidData,
        "unexpected binary field in `Account` layout: " ++ BinaryField.debugFmt (.uuid n)⟩)
    | .u8 n =>
      if n == "account_type" then
        wchain (wtrWrite w [account_type_to_u8 a.account_type], .ok ()) (accountEncFields a rest)
      else (w, .error ⟨.invalidData,
        "unexpected binary field in `Account` layout: " ++ BinaryField.debugFmt (.u8 n)⟩)
    | .i64 n =>
      if n == "created_at" then
        wchain (wtrWrite w (i64Le a.created_at), .ok ()) (accountEncFields a rest)
      else (w, .error ⟨.invalidData,
        "unexpected binary field in `Account` layout: " ++ BinaryField.debugFmt (.i64 n)⟩)
    | .lengthPrefixed lt n =>
      if n == "name" then
        wchain (write_length_prefixed_field (utf8Bytes a.name) n lt w) (accountEncFields a rest)
      else if n == "system_id" then
        wchain (write_length_prefixed_field (utf8Bytes a.system_id) n lt w) (accountEncFields a rest)
      else (w, .error ⟨.invalidData,
        "unexpected binary field in `Account` layout: " ++ BinaryField.debugFmt (.lengthPrefixed lt n)⟩)
    | other => (w, .error ⟨.invalidData,
        "unexpected binary field in `Account` layout: " ++ BinaryField.debugFmt other⟩)

/-- `Account::to_binary`: liveness byte `0x01`, then the fields in layout
order. -/
def Account.to_binary (a : Account) (layout : BinaryLayout) (w : Wtr) : Wtr × IoResult Unit :=
  accountEncFields a layout.fields (wtrWrite w [1])

/-! ### Transaction codec -/

/-- `serde_json::from_str(...).ok()` over the opaque `Value` model: parsing
well-formed stored metadata back yields the stored bytes; this development
never decodes transactions in any settled claim. -/
def jsonParse (s : String) : Option (List Nat) := some (utf8Bytes s)

/-- Loop state of `Transaction::from_binary`. -/
structure TransactionDec where
  id : Uuid := Uuid.nil
  description : String := ""
  timestamp : Int := 0
  metadata : Option (List Nat) := none

/-- The field loop of `Transaction::from_binary`. -/
def transactionDecFields (fields : List BinaryField) (acc : TransactionDec) (r : Rdr) :
    IoResult (TransactionDec × Rdr) :=
  match fields with
  | [] => .ok (acc, r)
  | field :: rest =>
    match field with
    | .uuid n =>
      if n == "id" then
        ebind (readExact 16 r) fun pr =>
          transactionDecFields rest { acc with id := ⟨pr.1⟩ } pr.2
      else transactionDecFields rest acc r
    | .lengthPrefixed lt n =>
      if n == "description" then
        ebind (read_length_prefixed_string lt r) fun pr =>
          transactionDecFields rest { acc with description := pr.1 } pr.2
      else if n == "metadata" then
        ebind (read_length_prefixed_string lt r) fun pr =>
          transactionDecFields rest
            { acc with metadata := if pr.1 == "" then none else jsonParse pr.1 } pr.2
      else transactionDecFields rest acc r
    | .i64 n =>
      if n == "timestamp" then
        ebind (readExact 8 r) fun pr =>
          transactionDecFields rest { acc with timestamp := i64OfLe pr.1 } pr.2
      else transactionDecFields rest acc r
    | _ => transactionDecFields rest acc r

/-- `Transaction::from_binary`. -/
def Transaction.from_binary (r : Rdr) (layout : BinaryLayout) : IoResult (Transaction × Rdr) :=
  ebind (transactionDecFields layout.fields {} r) fun pr =>
  .ok (⟨pr.1.id, pr.1.description, pr.1.timestamp, pr.1.metadata⟩, pr.2)

/-- `Transaction::skip_bytes` (its field match has no `U8` arm). -/
def Transaction.skip_bytes_fields (fields : List BinaryField) (r : Rdr) : IoResult Rdr :=
  match fields with
  | [] => .ok r
  | field :: rest =>
    match field with
    | .uuid _ => ebind (readExact 16 r) fun pr => Transaction.skip_bytes_fields rest pr.2
    | .i64 _ => ebind (readExact 8 r) fun pr => Transaction.skip_bytes_fields rest pr.2
    | .lengthPrefixed lt _ =>
      ebind (read_length_prefixed_string lt r) fun pr => Transaction.skip_bytes_fields rest pr.2
    | _ => Transaction.skip_bytes_fields rest r

/-- The field loop of `Transaction::to_binary`. -/
def transactionEncFields (t : Transaction) (fields : List BinaryField) (w : Wtr) :
    Wtr × IoResult Unit :=
  match fields with
  | [] => (w, .ok ())
  | field :: rest =>
    match field with
    | .uuid n =>
      if n == "id" then wchain (wtrWrite w t.id.bytes, .ok ()) (transactionEncFields t rest)
      else (w, .error ⟨.invalidData,
        "unexpected binary field in `Transaction` layout: " ++ BinaryField.debugFmt (.uuid n)⟩)
    | .lengthPrefixed lt n =>
      if n == "description" then
        wchain (write_length_prefixed_field (utf8Bytes t.description) n lt w)
          (transactionEncFields t rest)
      else if n == "metadata" then
        wchain (write_length_prefixed_field (t.metadata.getD []) n lt w)
          (transactionEncFields t rest)
      else (w, .error ⟨.invalidData,
        "unexpected binary field in `Transaction` layout: " ++
          BinaryField.debugFmt (.lengthPrefixed lt n)⟩)
    | .i64 n =>
      if n == "timestamp" then
        wchain (wtrWrite w (i64Le t.timestamp), .ok ()) (transactionEncFields t rest)
      else (w, .error ⟨.invalidData,
        "unexpected binary field in `Transaction` layout: " ++ BinaryField.debugFmt (.i64 n)⟩)
    | other => (w, .error ⟨.invalidData,
        "unexpected binary field in `Transaction` layout: " ++ BinaryField.debugFmt other⟩)

/-- `Transaction::to_binary`. -/
def Transaction.to_binary (t : Transaction) (layout : BinaryLayout) (w : Wtr) :
    Wtr × IoResult Unit :=
  transactionEncFields t layout.fields (wtrWrite w [1])

/-! ### Entry codec -/

/-- Loop state of `Entry::from_binary`. -/
structure EntryDec where
  id : Uuid := Uuid.nil
  transaction_id : Uuid := Uuid.nil
  account_id : Uuid := Uuid.nil
  amount : ℚ := 0

/-- The field loop of `Entry::from_binary`. -/
def entryDecFields (fields : List BinaryField) (acc : EntryDec) (r : Rdr) :
    IoResult (EntryDec × Rdr) :=
  match fields with
  | [] => .ok (acc, r)
  | field :: rest =>
    match field with
    | .uuid n =>
      if n == "id" then
        ebind (readExact 16 r) fun pr => entryDecFields rest { acc with id := ⟨pr.1⟩ } pr.2
      else if n == "transaction_id" then
        ebind (readExact 16 r) fun pr =>
          entryDecFields rest { acc with transaction_id := ⟨pr.1⟩ } pr.2
      else if n == "account_id" then
        ebind (readExact 16 r) fun pr =>
          entryDecFields rest { acc with account_id := ⟨pr.1⟩ } pr.2
      else entryDecFields rest acc r
    | .f64 n =>
      if n == "amount" then
        ebind (readExact 8 r) fun pr =>
          entryDecFields rest { acc with amount := f64OfBits (fromLe pr.1) } pr.2
      else entryDecFields rest acc r
    | _ => entryDecFields rest acc r

/-- `Entry::from_binary`. -/
def Entry.from_binary (r : Rdr) (layout : BinaryLayout) : IoResult (Entry × Rdr) :=
  ebind (entryDecFields layout.fields {} r) fun pr =>
  .ok (⟨pr.1.id, pr.1.transaction_id, pr.1.account_id, pr.1.amount⟩, pr.2)

/-- `Entry::skip_bytes` (its field match has only `Uuid` and `F64` arms). -/
def Entry.skip_bytes_fields (fields : List BinaryField) (r : Rdr) : IoResult Rdr :=
  match fields with
  | [] => .ok r
  | field :: rest =>
    match field with
    | .uuid _ => ebind (readExact 16 r) fun pr => Entry.skip_bytes_fields rest pr.2
    | .f64 _ => ebind (readExact 8 r) fun pr => Entry.skip_bytes_fields rest pr.2
    | _ => Entry.skip_bytes_fields rest r

/-- The field loop of `Entry::to_binary`. Note: the source matches the
amount field with the pattern `I64("amount")` while the catalog layout
declares `F64("amount")`, so under the catalog layout the `F64` field falls
into the catch-all error arm. -/
def entryEncFields (e : Entry) (fields : List BinaryField) (w : Wtr) : Wtr × IoResult Unit :=
  match fields with
  | [] => (w, .ok ())
  | field :: rest =>
    match field with
    | .uuid n =>
      if n == "id" then wchain (wtrWrite w e.id.bytes, .ok ()) (entryEncFields e rest)
      else if n == "transaction_id" then
        wchain (wtrWrite w e.transaction_id.bytes, .ok ()) (entryEncFields e rest)
      else if n == "account_id" then
        wchain (wtrWrite w e.account_id.bytes, .ok ()) (entryEncFields e rest)
      else (w, .error ⟨.invalidData,
        "unexpected binary field in `Entry` layout: " ++ BinaryField.debugFmt (.uuid n)⟩)
    | .i64 n =>
      if n == "amount" then
        wchain (wtrWrite w (leBytes 8 (f64Bits e.amount)), .ok ()) (entryEncFields e rest)
      else (w, .error ⟨.invalidData,
        "unexpected binary field in `Entry` layout: " ++ BinaryField.debugFmt (.i64 n)⟩)
    | other => (w, .error ⟨.invalidData,
        "unexpected binary field in `Entry` layout: " ++ BinaryField.debugFmt other⟩)

/-- `Entry::to_binary`. -/
def Entry.to_binary (e : Entry) (layout : BinaryLayout) (w : Wtr) : Wtr × IoResult Unit :=
  entryEncFields e layout.fields (wtrWrite w [1])

/-! ### System codec -/

/-- Loop state of `System::from_binary`. -/
structure SystemDec where
  id : String := ""
  description : String := ""

/-- The field loop of `System::from_binary`. -/
def systemDecFields (fields : List BinaryField) (acc : SystemDec) (r : Rdr) :
    IoResult (SystemDec × Rdr) :=
  match fields with
  | [] => .ok (acc, r)
  | field :: rest =>
    match field with
    | .lengthPrefixed lt n =>
      if n == "system_id" then
        ebind (read_length_prefixed_string lt r) fun pr =>
          systemDecFields rest { acc with id := pr.1 } pr.2
      else if n == "description" then
        ebind (read_length_prefixed_string lt r) fun pr =>
          systemDecFields rest { acc with description := pr.1 } pr.2
      else systemDecFields rest acc r
    | _ => systemDecFields rest acc r

/-- `System::from_binary`. -/
def System.from_binary (r : Rdr) (layout : BinaryLayout) : IoResult (System × Rdr) :=
  ebind (systemDecFields layout.fields {} r) fun pr =>
  .ok (⟨pr.1.id, pr.1.description⟩, pr.2)

/-- `System::skip_bytes` (only `LengthPrefixed` fields are consumed). -/
def System.skip_bytes_fields (fields : List BinaryField) (r : Rdr) : IoResult Rdr :=
  match fields with
  | [] => .ok r
  | field :: rest =>
    match field with
    | .lengthPrefixed lt _ =>
      ebind (read_length_prefixed_string lt r) fun pr => System.skip_bytes_fields rest pr.2
    | _ => System.skip_bytes_fields rest r

/-- The field loop of `System::to_binary`. -/
def systemEncFields (s : System) (fields : List BinaryField) (w : Wtr) : Wtr × IoResult Unit :=
  match fields with
  | [] => (w, .ok ())
  | field :: rest =>
    match field with
    | .lengthPrefixed lt n =>
      if n == "system_id" then
        wchain (write_length_prefixed_field (utf8Bytes s.id) n lt w) (systemEncFields s rest)
      else if n == "description" then
        wchain (write_length_prefixed_field (utf8Bytes s.description) n lt w)
          (systemEncFields s rest)
      else (w, .error ⟨.invalidInput, "unknown field in layout: " ++ n⟩)
    | other => (w, .error ⟨.invalidData,
        "unexpected binary field in `System` layout: " ++ BinaryField.debugFmt other⟩)

/-- `System::to_binary`. -/
def System.to_binary (s : System) (layout : BinaryLayout) (w : Wtr) : Wtr × IoResult Unit :=
  systemEncFields s layout.fields (wtrWrite w [1])

/-! ### ConversionGraph codec -/

/-- Loop state of `ConversionGraph::from_binary`. The source initialises
`rate_since` with `Utc::now()`; the initial value can never reach a decoded
record under the catalog layout (the loop either overwrites it from the
`I64("rate_since")` field or errors out), so the model uses `0`. -/
structure CgDec where
  graph : String := ""
  rate : ℚ := 0
  rate_since : Int := 0

/-- The field loop of `ConversionGraph::from_binary`. A non-`'C'` graph tag
consumes `len + 8 + 8 - 1` further bytes and raises the recoverable
historical-record error; an unknown field is a decode error (this decoder
has no silent wildcard arm). -/
def cgDecFields (fields : List BinaryField) (acc : CgDec) (r : Rdr) : IoResult (CgDec × Rdr) :=
  match fields with
  | [] => .ok (acc, r)
  | field :: rest =>
    match field with
    | .lengthPrefixed lt n =>
      if n == "graph" then
        ebind (readLpLen lt r) fun pr =>
        let len := pr.1
        ebind (readExact 1 pr.2) fun prt =>
        let tag := prt.1.headD 0
        if tag != 67 then
          ebind (readExact (len + 8 + 8 - 1) prt.2) fun _ =>
          .error historicalErr
        else
          ebind (readExact (len - 1) prt.2) fun prg =>
          let graph_with_key := utf8DecodeOrEmpty (tag :: prg.1)
          let g : String :=
            match recCapture graph_with_key.data with
            | some inside => ⟨inside⟩
            | none => acc.graph
          cgDecFields rest { acc with graph := g } prg.2
      else .error ⟨.invalidData, "invalid field for `ConversionGraph`"⟩
    | .f64 n =>
      if n == "rate" then
        ebind (readExact 8 r) fun pr =>
          cgDecFields rest { acc with rate := f64OfBits (fromLe pr.1) } pr.2
      else .error ⟨.invalidData, "invalid field for `ConversionGraph`"⟩
    | .i64 n =>
      if n == "rate_since" then
        ebind (readExact 8 r) fun pr =>
          cgDecFields rest { acc with rate_since := i64OfLe pr.1 } pr.2
      else .error ⟨.invalidData, "invalid field for `ConversionGraph`"⟩
    | _ => .error ⟨.invalidData, "invalid field for `ConversionGraph`"⟩

/-- `ConversionGraph::from_binary`. -/
def ConversionGraph.from_binary (r : Rdr) (layout : BinaryLayout) :
    IoResult (ConversionGraph × Rdr) :=
  ebind (cgDecFields layout.fields {} r) fun pr =>
  .ok (⟨pr.1.graph, pr.1.rate, pr.1.rate_since⟩, pr.2)

/-- `ConversionGraph::skip_bytes`: a `LengthPrefixed` field is skipped by
reading its prefix and then exactly `len` bytes; `F64`/`I64` skip 8 bytes. -/
def ConversionGraph.skip_bytes_fields (fields : List BinaryField) (r : Rdr) : IoResult Rdr :=
  match fields with
  | [] => .ok r
  | field :: rest =>
    match field with
    | .lengthPrefixed lt _ =>
      ebind (readLpLen lt r) fun pr =>
      ebind (readExact pr.1 pr.2) fun pr2 =>
      ConversionGraph.skip_bytes_fields rest pr2.2
    | .f64 _ => ebind (readExact 8 r) fun pr => ConversionGraph.skip_bytes_fields rest pr.2
    | .i64 _ => ebind (readExact 8 r) fun pr => ConversionGraph.skip_bytes_fields rest pr.2
    | _ => ConversionGraph.skip_bytes_fields rest r

/-- The graph-field bytes `ConversionGraph::to_binary` produces: the class
marker and the key wrapped in square brackets. -/
def cgGraphFieldBytes (g : ConversionGraph) : IoResult (List Nat) :=
  let keyClass := classify_graph_key g
  if keyClass == "active" then .ok (utf8Bytes ("C[" ++ g.graph ++ "]"))
  else if keyClass == "historical" then .ok (utf8Bytes ("H[" ++ g.graph ++ "]"))
  else .error ⟨.invalidInput, "unknown graph key class: " ++ keyClass⟩

/-- The field loop of `ConversionGraph::to_binary`. -/
def cgEncFields (g : ConversionGraph) (fields : List BinaryField) (w : Wtr) :
    Wtr × IoResult Unit :=
  match fields with
  | [] => (w, .ok ())
  | field :: rest =>
    match field with
    | .lengthPrefixed lt n =>
      if n == "graph" then
        match cgGraphFieldBytes g with
        | .ok bytes => wchain (write_length_prefixed_field bytes n lt w) (cgEncFields g rest)
        | .error e => (w, .error e)
      else (w, .error ⟨.invalidInput, "unknown field in layout: " ++ n⟩)
    | .f64 n =>
      if n == "rate" then
        wchain (wtrWrite w (leBytes 8 (f64Bits g.rate)), .ok ()) (cgEncFields g rest)
      else (w, .error ⟨.invalidData,
        "unexpected binary field in `ConversionGraph` layout: " ++ BinaryField.debugFmt (.f64 n)⟩)
    | .i64 n =>
      if n == "rate_since" then
        wchain (wtrWrite w (i64Le g.rate_since), .ok ()) (cgEncFields g rest)
      else (w, .error ⟨.invalidData,
        "unexpected binary field in `ConversionGraph` layout: " ++ BinaryField.debugFmt (.i64 n)⟩)
    | other => (w, .error ⟨.invalidData,
        "unexpected binary field in `ConversionGraph` layout: " ++ BinaryField.debugFmt other⟩)

/-- `ConversionGraph::to_binary`. -/
def ConversionGraph.to_binary (g : ConversionGraph) (layout : BinaryLayout) (w : Wtr) :
    Wtr × IoResult Unit :=
  cgEncFields g layout.fields (wtrWrite w [1])

/-! ## Record store operations (TombstoneReader / TombstoneWriter for
BinaryStorage, storage/binary.rs). The per-type codec functions are passed
explicitly where Rust dispatches on the type name. -/

/-- `BinaryStorage::read_single`: seek to the offset, check the liveness
byte (`DeadRecord` when tombstoned), then decode. -/
def read_single {α : Type} (fb : Rdr → BinaryLayout → IoResult (α × Rdr))
    (layout : BinaryLayout) (file : List Nat) (offset : Nat) : IoResult α :=
  ebind (readExact 1 (seekTo offset ⟨file, 0⟩)) fun pr =>
  if is_tombstone_byte (pr.1.headD 0) then .error deadRecordErr
  else ebind (fb pr.2 layout) fun ir => .ok ir.1

/-- `TombstoneReader::read_or_skip`. Remembers the position of the liveness
byte; on a tombstoned record runs the layout walker; on a recoverable
`InvalidData` decode error seeks back to the remembered position — the
liveness byte included — and runs the layout walker from there. Returns the
reader state alongside the result (the reader lives in a `RefCell` in the
source; positions after non-ignorable errors are never consumed because the
scan loop stops there). -/
def read_or_skip {α : Type} (fb : Rdr → BinaryLayout → IoResult (α × Rdr))
    (sk : List BinaryField → Rdr → IoResult Rdr) (layout : BinaryLayout) (r0 : Rdr) :
    Rdr × IoResult α :=
  let cur := r0.pos
  match readExact 1 r0 with
  | .error e => (r0, .error e)
  | .ok pr =>
    let r1 := pr.2
    if is_tombstone_byte (pr.1.headD 0) then
      match sk layout.fields r1 with
      | .ok r2 => (r2, .error deadRecordErr)
      | .error e => (r1, .error e)
    else
      match fb r1 layout with
      | .ok ir => (ir.2, .ok ir.1)
      | .error e =>
        if e.kind == .invalidData && is_ignorable_error e then
          match sk layout.fields (seekTo cur r1) with
          | .ok r2 => (r2, .error e)
          | .error e2 => (seekTo cur r1, .error e2)
        else (r1, .error e)

/-- The loop body of `TombstoneReader::read`: push decoded records,
terminate normally at `UnexpectedEof`, absorb ignorable errors, fail on
anything else. Fuel-bounded; every continuing iteration strictly advances
the cursor, so `file.length + 1` fuel never runs out on a scan from zero
(exhaustion is a distinguishable model-artefact error, proved unreachable
wherever a theorem needs the scan's value). -/
def scanLoop {α : Type} (fb : Rdr → BinaryLayout → IoResult (α × Rdr))
    (sk : List BinaryField → Rdr → IoResult Rdr) (layout : BinaryLayout) :
    Nat → Rdr → List α → Rdr × IoResult (List α)
  | 0, r, _ => (r, .error ⟨.other, "scan fuel exhausted (model artefact)"⟩)
  | fuel + 1, r, acc =>
    let step := read_or_skip fb sk layout r
    match step.2 with
    | .ok item => scanLoop fb sk layout fuel step.1 (item :: acc)
    | .error e =>
      if e.kind == .unexpectedEof then (step.1, .ok acc.reverse)
      else if is_ignorable_error e then scanLoop fb sk layout fuel step.1 acc
      else (step.1, .error e)

/-- `TombstoneReader::read` — full scan of one record file from byte 0. -/
def readScan {α : Type} (fb : Rdr → BinaryLayout → IoResult (α × Rdr))
    (sk : List BinaryField → Rdr → IoResult Rdr) (layout : BinaryLayout)
    (file : List Nat) : IoResult (List α) :=
  (scanLoop fb sk layout (file.length + 1) ⟨file, 0⟩ []).2

/-- `TombstoneWriter::tombstone`: read the record at the offset, compare by
`PartialEq` (identity field), fail with the wrong-record error on mismatch;
otherwise write a single `0x00` byte through the writer. The ledger's
writers are opened in append mode, so that byte is appended at end of file
(`O_APPEND`), not written at the seeked offset. -/
def tombstone {α : Type} (fb : Rdr → BinaryLayout → IoResult (α × Rdr))
    (peq : α → α → Bool) (layout : BinaryLayout) (file : List Nat) (item : α)
    (offset : Nat) : List Nat × IoResult Unit :=
  match read_single fb layout file offset with
  | .error e => (file, .error e)
  | .ok stored =>
    if !(peq stored item) then (file, .error wrongRecordErr)
    else ((wtrWrite ⟨file⟩ [0]).data, .ok ())

/-- `TombstoneWriter::write`: the returned offset is end-of-file before the
record's bytes are appended; on an encoder error the bytes written before
the failure stay in the stream. -/
def storageWrite {α : Type} (tb : α → BinaryLayout → Wtr → Wtr × IoResult Unit)
    (layout : BinaryLayout) (file : List Nat) (item : α) :
    List Nat × IoResult (Nat × α) :=
  let offset := file.length
  let pr := tb item layout ⟨file⟩
  match pr.2 with
  | .ok _ => (pr.1.data, .ok (offset, item))
  | .error e => (pr.1.data, .error e)

/-! ### Per-type storage entry points (the type-name dispatch of the
source's `read`/`read_single`/`tombstone`/`write`). -/

/-- Scan of the systems file. -/
def readSystems (file : List Nat) : IoResult (List System) :=
  readScan System.from_binary System.skip_bytes_fields system_layout file

/-- Scan of the accounts file. -/
def readAccounts (file : List Nat) : IoResult (List Account) :=
  readScan Account.from_binary Account.skip_bytes_fields account_layout file

/-- Scan of the transactions file. -/
def readTransactions (file : List Nat) : IoResult (List Transaction) :=
  readScan Transaction.from_binary Transaction.skip_bytes_fields transaction_layout file

/-- Scan of the entries file. -/
def readEntries (file : List Nat) : IoResult (List Entry) :=
  readScan Entry.from_binary Entry.skip_bytes_fields entry_layout file

/-- Scan of the conversion-graphs file. -/
def readConversionGraphs (file : List Nat) : IoResult (List ConversionGraph) :=
  readScan ConversionGraph.from_binary ConversionGraph.skip_bytes_fields
    conversion_graph_layout file

/-- `read_single::<System>`. -/
def readSingleSystem (file : List Nat) (offset : Nat) : IoResult System :=
  read_single System.from_binary system_layout file offset

/-- `read_single::<Account>`. -/
def readSingleAccount (file : List Nat) (offset : Nat) : IoResult Account :=
  read_single Account.from_binary account_layout file offset

/-- `read_single::<Transaction>`. -/
def readSingleTransaction (file : List Nat) (offset : Nat) : IoResult Transaction :=
  read_single Transaction.from_binary transaction_layout file offset

/-- `read_single::<Entry>`. -/
def readSingleEntry (file : List Nat) (offset : Nat) : IoResult Entry :=
  read_single Entry.from_binary entry_layout file offset

/-- `read_single::<ConversionGraph>`. -/
def readSingleConversionGraph (file : List Nat) (offset : Nat) : IoResult ConversionGraph :=
  read_single ConversionGraph.from_binary conversion_graph_layout file offset

/-- `tombstone::<System>`. -/
def tombstoneSystem (file : List Nat) (item : System) (offset : Nat) :
    List Nat × IoResult Unit :=
  tombstone System.from_binary System.peq system_layout file item offset

/-- `tombstone::<Account>`. -/
def tombstoneAccount (file : List Nat) (item : Account) (offset : Nat) :
    List Nat × IoResult Unit :=
  tombstone Account.from_binary Account.peq account_layout file item offset

/-- `tombstone::<Transaction>`. -/
def tombstoneTransaction (file : List Nat) (item : Transaction) (offset : Nat) :
    List Nat × IoResult Unit :=
  tombstone Transaction.from_binary Transaction.peq transaction_layout file item offset

/-- `tombstone::<Entry>`. -/
def tombstoneEntry (file : List Nat) (item : Entry) (offset : Nat) :
    List Nat × IoResult Unit :=
  tombstone Entry.from_binary Entry.peq entry_layout file item offset

/-- `tombstone::<ConversionGraph>`. -/
def tombstoneConversionGraph (file : List Nat) (item : ConversionGraph) (offset : Nat) :
    List Nat × IoResult Unit :=
  tombstone ConversionGraph.from_binary ConversionGraph.peq conversion_graph_layout
    file item offset

/-- `write::<System>`. -/
def writeSystem (file : List Nat) (item : System) : List Nat × IoResult (Nat × System) :=
  storageWrite System.to_binary system_layout file item

/-- `write::<Account>`. -/
def writeAccount (file : List Nat) (item : Account) : List Nat × IoResult (Nat × Account) :=
  storageWrite Account.to_binary account_layout file item

/-- `write::<Transaction>`. -/
def writeTransaction (file : List Nat) (item : Transaction) :
    List Nat × IoResult (Nat × Transaction) :=
  storageWrite Transaction.to_binary transaction_layout file item

/-- `write::<Entry>`. -/
def writeEntry (file : List Nat) (item : Entry) : List Nat × IoResult (Nat × Entry) :=
  storageWrite Entry.to_binary entry_layout file item

/-- `write::<ConversionGraph>`. -/
def writeConversionGraph (file : List Nat) (item : ConversionGraph) :
    List Nat × IoResult (Nat × ConversionGraph) :=
  storageWrite ConversionGraph.to_binary conversion_graph_layout file item

/-! ## In-memory maps and indexes (HashMap / BTreeIndex) -/

/-- `HashMap::insert` / `BTreeMap::insert` on the association-list model:
replace the value under an existing key, otherwise add the pair. (Key order
is irrelevant to every settled claim; iteration order of the association
list is first-insertion order.) -/
def mapInsert {α : Type} (k : Uuid) (v : α) : List (Uuid × α) → List (Uuid × α)
  | [] => [(k, v)]
  | (k2, v2) :: rest => if k2 = k then (k, v) :: rest else (k2, v2) :: mapInsert k v rest

/-- `HashMap::get` / `BTreeMap::get`. -/
def mapGet {α : Type} (k : Uuid) : List (Uuid × α) → Option α
  | [] => none
  | (k2, v2) :: rest => if k2 = k then some v2 else mapGet k rest

/-- `HashMap::contains_key`. -/
def mapContains {α : Type} (k : Uuid) (m : List (Uuid × α)) : Bool :=
  (mapGet k m).isSome

/-! ## Timestamp rendering (`DateTime<Utc>::to_rfc3339`) -/

/-- Decimal digits of a natural number (fuel-bounded). -/
def natDigits : Nat → Nat → List Char
  | _, 0 => []
  | n, fuel + 1 => if n = 0 then [] else natDigits (n / 10) fuel ++ [hexDigit (n % 10)]

/-- Render a natural number in decimal. -/
def natToStr (n : Nat) : String := if n = 0 then "0" else ⟨natDigits n 30⟩

/-- Zero-padded two-digit field. -/
def pad2 (n : Nat) : String := if n < 10 then "0" ++ natToStr n else natToStr n

/-- Zero-padded four-digit year (the era of every timestamp this store
produces). -/
def pad4 (y : Int) : String :=
  let n := y.toNat
  if n < 10 then "000" ++ natToStr n
  else if n < 100 then "00" ++ natToStr n
  else if n < 1000 then "0" ++ natToStr n
  else natToStr n

/-- Proleptic-Gregorian civil date from days since 1970-01-01 (Howard
Hinnant's `civil_from_days`). -/
def civilFromDays (z0 : Int) : Int × Nat × Nat :=
  let z := z0 + 719468
  let era := z.ediv 146097
  let doe := (z - era * 146097).toNat
  let yoe := (doe - doe / 1460 + doe / 36524 - doe / 146096) / 365
  let doy := doe - (365 * yoe + yoe / 4 - yoe / 100)
  let mp := (5 * doy + 2) / 153
  let d := doy - (153 * mp + 2) / 5 + 1
  let m := if mp < 10 then mp + 3 else mp - 9
  let y := (yoe : Int) + era * 400 + (if m ≤ 2 then 1 else 0)
  (y, m, d)

/-- `to_rfc3339` of a whole-second UTC instant: the `+00:00`-zoned form with
no fractional part (the store only stamps second-resolution instants). -/
def toRfc3339 (t : Int) : String :=
  let days := t.ediv 86400
  let secs := (t - days * 86400).toNat
  let ymd := civilFromDays days
  pad4 ymd.1 ++ "-" ++ pad2 ymd.2.1 ++ "-" ++ pad2 ymd.2.2 ++ "T" ++
    pad2 (secs / 3600) ++ ":" ++ pad2 (secs % 3600 / 60) ++ ":" ++ pad2 (secs % 60) ++ "+00:00"

/-! ## Ledger façade (db.rs) -/

/-- Display rendering of an `f64` as interpolated into validation error
messages. Rust prints the shortest round-tripping decimal; no settled claim
inspects these message payloads, so the model prints the exact rational. -/
def fmtQ (q : ℚ) : String :=
  let sign := if q.num < 0 then "-" else ""
  if q.den = 1 then sign ++ natToStr q.num.natAbs
  else sign ++ natToStr q.num.natAbs ++ "/" ++ natToStr q.den

/-- The in-memory ledger state plus the five record files. The five
`HashMap`s / the entries vector / the five `BTreeIndex`es are exactly the
fields of `struct Ledger`; the files stand for the byte streams behind its
`BinaryStorage` readers and append-mode writers. -/
structure Ledger where
  accountsFile : List Nat
  transactionsFile : List Nat
  entriesFile : List Nat
  systemsFile : List Nat
  conversionGraphsFile : List Nat
  accounts : List (Uuid × Account)
  transactions : List (Uuid × Transaction)
  entries : List Entry
  systems : List (Uuid × System)
  conversion_graphs : List (Uuid × ConversionGraph)
  account_index : List (Uuid × Nat)
  transaction_index : List (Uuid × Nat)
  entry_index : List (Uuid × Nat)
  system_index : List (Uuid × Nat)
  conversion_graph_index : List (Uuid × Nat)

/-- A ledger over empty files with empty maps and indexes (the state right
after `install` creates the empty data files and `load_from_disk` runs). -/
def emptyLedger : Ledger :=
  ⟨[], [], [], [], [], [], [], [], [], [], [], [], [], [], []⟩

/-- The map-building step of `load_from_disk` for accounts: the in-memory
accounts map is keyed by `account.id` itself (db.rs line 83). -/
def loadAccountsMap (l : List Account) : List (Uuid × Account) :=
  l.map (fun a => (a.id, a))

/-- The map-building step of `load_from_disk` for transactions (keyed by
`transaction.id`). -/
def loadTransactionsMap (l : List Transaction) : List (Uuid × Transaction) :=
  l.map (fun t => (t.id, t))

/-- The map-building step of `load_from_disk` for systems (keyed by the
deterministic UUID of the system's string id). -/
def loadSystemsMap (l : List System) : List (Uuid × System) :=
  l.map (fun s => (genUuidOfStr s.id, s))

/-- The map-building step of `load_from_disk` for conversion graphs (keyed
by the deterministic UUID of the graph string). -/
def loadConversionGraphsMap (l : List ConversionGraph) : List (Uuid × ConversionGraph) :=
  l.map (fun g => (genUuidOfStr g.graph, g))

/-- `Ledger::create_account`: write the record, then key both the in-memory
map and the index by `generate_deterministic_uuid(&account.id)` — the hash
of the account's UUID, not the UUID itself. -/
def Ledger.create_account (st : Ledger) (account : Account) : Ledger × IoResult Unit :=
  let pr := writeAccount st.accountsFile account
  match pr.2 with
  | .error e => ({ st with accountsFile := pr.1 }, .error e)
  | .ok res =>
    let uuid := genUuidOfUuid res.2.id
    ({ st with
        accountsFile := pr.1,
        accounts := mapInsert uuid res.2 st.accounts,
        account_index := mapInsert uuid res.1 st.account_index }, .ok ())

/-- `Ledger::create_system`. -/
def Ledger.create_system (st : Ledger) (system : System) : Ledger × IoResult Unit :=
  let pr := writeSystem st.systemsFile system
  match pr.2 with
  | .error e => ({ st with systemsFile := pr.1 }, .error e)
  | .ok res =>
    let uuid := genUuidOfStr res.2.id
    ({ st with
        systemsFile := pr.1,
        systems := mapInsert uuid res.2 st.systems,
        system_index := mapInsert uuid res.1 st.system_index }, .ok ())

/-- `Ledger::archive_conversion_graph`: rewrite the live record under its
time-bracketed historical key, tombstone the prior live record when the
index knows its offset, append the historical record and register it. -/
def Ledger.archive_conversion_graph (st : Ledger) (graph : ConversionGraph)
    (expired_at : Int) : Ledger × IoResult Unit :=
  let historical_graph : ConversionGraph :=
    ⟨toRfc3339 graph.rate_since ++ "[" ++ graph.graph ++ "]" ++ toRfc3339 expired_at,
     graph.rate, graph.rate_since⟩
  let old_uuid := genUuidOfStr graph.graph
  let afterTomb : Ledger × IoResult Unit :=
    match mapGet old_uuid st.conversion_graph_index with
    | some offset =>
      let pr := tombstoneConversionGraph st.conversionGraphsFile graph offset
      ({ st with conversionGraphsFile := pr.1 }, pr.2)
    | none => (st, .ok ())
  match afterTomb.2 with
  | .error e => (afterTomb.1, .error e)
  | .ok _ =>
    let st1 := afterTomb.1
    let pr := writeConversionGraph st1.conversionGraphsFile historical_graph
    match pr.2 with
    | .error e => ({ st1 with conversionGraphsFile := pr.1 }, .error e)
    | .ok res =>
      let historical_uuid := genUuidOfStr res.2.graph
      ({ st1 with
          conversionGraphsFile := pr.1,
          conversion_graph_index := mapInsert historical_uuid res.1 st1.conversion_graph_index,
          conversion_graphs := mapInsert historical_uuid res.2 st1.conversion_graphs }, .ok ())

/-- One direction of `create_conversion_graph`: archive any live record
under `graph_key`, then stamp and append the new record and register it
under the derived UUID. Used verbatim by the `"->"` and `"<-"` arms. -/
def Ledger.cgWriteDirection (st : Ledger) (graph : ConversionGraph) (graph_key : String)
    (now : Int) : Ledger × IoResult Unit :=
  let existing_uuid := genUuidOfStr graph_key
  let afterArchive : Ledger × IoResult Unit :=
    match mapGet existing_uuid st.conversion_graphs with
    | some existing => Ledger.archive_conversion_graph st existing now
    | none => (st, .ok ())
  match afterArchive.2 with
  | .error e => (afterArchive.1, .error e)
  | .ok _ =>
    let st1 := afterArchive.1
    let g2 : ConversionGraph := { graph with graph := graph_key, rate_since := now }
    let uuid := genUuidOfStr g2.graph
    let pr := writeConversionGraph st1.conversionGraphsFile g2
    match pr.2 with
    | .error e => ({ st1 with conversionGraphsFile := pr.1 }, .error e)
    | .ok res =>
      ({ st1 with
          conversionGraphsFile := pr.1,
          conversion_graphs := mapInsert uuid res.2 st1.conversion_graphs,
          conversion_graph_index := mapInsert uuid res.1 st1.conversion_graph_index }, .ok ())

/-- The `"<->"` arm after archiving: append the forward record at the given
rate and the reverse record at `1.0 / rate`, both carrying the caller's
`rate_since` (this arm does not stamp `now` into `rate_since`). -/
def Ledger.cgWriteBidirectional (st : Ledger) (graph : ConversionGraph)
    (forward_key reverse_key : String) : Ledger × IoResult Unit :=
  let forward : ConversionGraph := ⟨forward_key, graph.rate, graph.rate_since⟩
  let uuid := genUuidOfStr forward.graph
  let pr := writeConversionGraph st.conversionGraphsFile forward
  match pr.2 with
  | .error e => ({ st with conversionGraphsFile := pr.1 }, .error e)
  | .ok res =>
    let st1 := { st with
      conversionGraphsFile := pr.1,
      conversion_graphs := mapInsert uuid res.2 st.conversion_graphs,
      conversion_graph_index := mapInsert uuid res.1 st.conversion_graph_index }
    let reverse : ConversionGraph := ⟨reverse_key, qdiv 1 graph.rate, graph.rate_since⟩
    let uuid2 := genUuidOfStr reverse.graph
    let pr2 := writeConversionGraph st1.conversionGraphsFile reverse
    match pr2.2 with
    | .error e => ({ st1 with conversionGraphsFile := pr2.1 }, .error e)
    | .ok res2 =>
      ({ st1 with
          conversionGraphsFile := pr2.1,
          conversion_graphs := mapInsert uuid2 res2.2 st1.conversion_graphs,
          conversion_graph_index := mapInsert uuid2 res2.1 st1.conversion_graph_index }, .ok ())

/-- `Ledger::create_conversion_graph`. `now` is the `Utc::now()` instant the
call observes, in seconds. -/
def Ledger.create_conversion_graph (st : Ledger) (graph : ConversionGraph) (now : Int) :
    Ledger × IoResult Unit :=
  let parts := splitWs graph.graph
  if parts.length ≠ 3 then
    (st, .error ⟨.invalidData, "invalid graph format: " ++ graph.graph⟩)
  else
    let from_system := parts.getD 0 ""
    let direction := parts.getD 1 ""
    let to_system := parts.getD 2 ""
    let from_uuid := genUuidOfStr from_system
    let to_uuid := genUuidOfStr to_system
    if !(mapContains from_uuid st.systems) then
      (st, .error ⟨.notFound, "source system not found: " ++ from_system⟩)
    else if !(mapContains to_uuid st.systems) then
      (st, .error ⟨.notFound, "target system not found: " ++ to_system⟩)
    else if direction == "->" then
      Ledger.cgWriteDirection st graph (from_system ++ " -> " ++ to_system) now
    else if direction == "<-" then
      Ledger.cgWriteDirection st graph (to_system ++ " -> " ++ from_system) now
    else if direction == "<->" then
      let forward_key := from_system ++ " -> " ++ to_system
      let reverse_key := to_system ++ " -> " ++ from_system
      let forward_uuid := genUuidOfStr forward_key
      let reverse_uuid := genUuidOfStr reverse_key
      let afterFwd : Ledger × IoResult Unit :=
        match mapGet forward_uuid st.conversion_graphs with
        | some existing => Ledger.archive_conversion_graph st existing now
        | none => (st, .ok ())
      match afterFwd.2 with
      | .error e => (afterFwd.1, .error e)
      | .ok _ =>
        let afterRev : Ledger × IoResult Unit :=
          match mapGet reverse_uuid afterFwd.1.conversion_graphs with
          | some existing => Ledger.archive_conversion_graph afterFwd.1 existing now
          | none => (afterFwd.1, .ok ())
        match afterRev.2 with
        | .error e => (afterRev.1, .error e)
        | .ok _ => Ledger.cgWriteBidirectional afterRev.1 graph forward_key reverse_key
    else
      (st, .error ⟨.invalidData,
        "invalid direction: " ++ direction ++ ". must be ->, <-, or <->"⟩)

/-- Push an entry onto its group in the `HashMap<Uuid, Vec<&Entry>>` of
`record_transaction` (`entry(uuid).or_default().push(entry)`); groups are
kept in first-insertion order. -/
def groupPush (k : Uuid) (e : Entry) : List (Uuid × List Entry) → List (Uuid × List Entry)
  | [] => [(k, [e])]
  | (k2, es) :: rest => if k2 = k then (k2, es ++ [e]) :: rest else (k2, es) :: groupPush k e rest

/-- The grouping loop of `record_transaction`: look each entry's account up
under `generate_deterministic_uuid(&entry.account_id)` (`NotFound` when
absent) and group the entry under `generate_deterministic_uuid(&account.id)`
— the hash of the account's own UUID, not of the account's `system_id`. -/
def buildSystemEntries (st : Ledger) :
    List Entry → List (Uuid × List Entry) → IoResult (List (Uuid × List Entry))
  | [], acc => .ok acc
  | e :: rest, acc =>
    let acc_uuid := genUuidOfUuid e.account_id
    match mapGet acc_uuid st.accounts with
    | none => .error ⟨.notFound, "account not found: " ++ e.account_id.toStr⟩
    | some account =>
      let uuid := genUuidOfUuid account.id
      buildSystemEntries st rest (groupPush uuid e acc)

/-- The per-group validation loop of `record_transaction`: each group key
must be present in the systems map (`NotFound` otherwise) and each group
must sum to zero within `f64::EPSILON` (`InvalidData` otherwise). The
source iterates a `HashMap` in arbitrary order; the model iterates in
first-insertion order — success does not depend on the order, only which
of several possible errors surfaces first. -/
def checkSystemEntries (st : Ledger) : List (Uuid × List Entry) → IoResult Unit
  | [] => .ok ()
  | (system_id, es) :: rest =>
    if !(mapContains system_id st.systems) then
      .error ⟨.notFound, "system not found: " ++ system_id.toStr⟩
    else
      let system_sum := es.foldl (fun acc e => qadd acc e.amount) 0
      if f64Epsilon < qabs system_sum then
        .error ⟨.invalidData,
          "unbalanced entries in system " ++ system_id.toStr ++ ": sum = " ++ fmtQ system_sum⟩
      else checkSystemEntries st rest

/-- The entry-append loop of `record_transaction` (step 4): writes already
performed stay in the state when a later write fails. -/
def writeEntriesLoop (st : Ledger) : List Entry → Ledger × IoResult Unit
  | [] => (st, .ok ())
  | e :: rest =>
    let pr := writeEntry st.entriesFile e
    match pr.2 with
    | .error err => ({ st with entriesFile := pr.1 }, .error err)
    | .ok res =>
      writeEntriesLoop
        { st with
            entriesFile := pr.1,
            entry_index := mapInsert (genUuidOfUuid res.2.id) res.1 st.entry_index,
            entries := st.entries ++ [res.2] } rest

/-- `Ledger::record_transaction`: global balance check, account lookup and
grouping, per-group checks, then append entries and the transaction. The
transactions map is keyed by `tx.id` itself while its index is keyed by
`generate_deterministic_uuid(&tx.id)`. -/
def Ledger.record_transaction (st : Ledger) (tx : Transaction) (entries : List Entry) :
    Ledger × IoResult Unit :=
  let sum := entries.foldl (fun acc e => qadd acc e.amount) 0
  if f64Epsilon < qabs sum then
    (st, .error ⟨.invalidData, "unbalanced transaction: total = " ++ fmtQ sum⟩)
  else
    match buildSystemEntries st entries [] with
    | .error e => (st, .error e)
    | .ok system_entries =>
      match checkSystemEntries st system_entries with
      | .error e => (st, .error e)
      | .ok _ =>
        let afterEntries := writeEntriesLoop st entries
        match afterEntries.2 with
        | .error e => (afterEntries.1, .error e)
        | .ok _ =>
          let st1 := afterEntries.1
          let pr := writeTransaction st1.transactionsFile tx
          match pr.2 with
          | .error e => ({ st1 with transactionsFile := pr.1 }, .error e)
          | .ok res =>
            ({ st1 with
                transactionsFile := pr.1,
                transaction_index :=
                  mapInsert (genUuidOfUuid res.2.id) res.1 st1.transaction_index,
                transactions := mapInsert res.2.id res.2 st1.transactions }, .ok ())

/-! ## Concrete fixtures used by the claim theorems -/

/-- A demo account UUID. -/
def demoU1 : Uuid := ⟨[1, 0, 0, 0, 0, 0, 0, 0, 0, 0, 0, 0, 0, 0, 0, 0]⟩

/-- A second demo account UUID. -/
def demoU2 : Uuid := ⟨[2, 0, 0, 0, 0, 0, 0, 0, 0, 0, 0, 0, 0, 0, 0, 0]⟩

/-- A demo transaction UUID. -/
def demoUT : Uuid := ⟨[3, 0, 0, 0, 0, 0, 0, 0, 0, 0, 0, 0, 0, 0, 0, 0]⟩

/-- The `IDR` demo system. -/
def sysIDR : System := ⟨"IDR", "rupiah"⟩

/-- Demo asset account `a1` under system `IDR`. -/
def acct1 : Account := ⟨demoU1, "a1", .asset, 0, "IDR"⟩

/-- Demo asset account `a2` under system `IDR`. -/
def acct2 : Account := ⟨demoU2, "a2", .asset, 0, "IDR"⟩

/-- Ledger state after `create_system(IDR)`, `create_account(a1)`,
`create_account(a2)` on a fresh store. -/
def stS1 : Ledger :=
  (Ledger.create_account (Ledger.create_account
    (Ledger.create_system emptyLedger sysIDR).1 acct1).1 acct2).1

/-- A demo transaction. -/
def tx0 : Transaction := ⟨demoUT, "transfer", 0, none⟩

/-- Demo entry: debit 100 on `a1`. -/
def ent1 : Entry := ⟨⟨[4, 0, 0, 0, 0, 0, 0, 0, 0, 0, 0, 0, 0, 0, 0, 0]⟩, demoUT, demoU1, 100⟩

/-- Demo entry: credit 100 on `a2`. -/
def ent2 : Entry := ⟨⟨[5, 0, 0, 0, 0, 0, 0, 0, 0, 0, 0, 0, 0, 0, 0, 0]⟩, demoUT, demoU2, -100⟩

/-- A historical conversion-graph record (its key matches the historical
pattern, so `to_binary` writes it with the `'H'` marker). -/
def histCG : ConversionGraph :=
  ⟨"2024-01-01T00:00:00.123+00:00[USD -> IDR]2024-01-02T00:00:00+00:00", 14000, 1704067200⟩

/-- A live conversion-graph record (`'C'` marker). -/
def actCG : ConversionGraph := ⟨"USD -> IDR", 15000, 1704153600⟩

/-- Conversion-graphs file holding one historical record followed by one
live record, as the archive protocol interleaves them. -/
def cgDemoFile : List Nat :=
  (writeConversionGraph (writeConversionGraph [] histCG).1 actCG).1

/-! ## Claim theorems -/

/-- Claim C1. The claim says `record_transaction` succeeds exactly when the
balance checks pass and all referenced accounts and their systems exist,
with entries partitioned by each account's `system_id`. The code instead
groups entries by `generate_deterministic_uuid(&account.id)` and looks that
key up in the systems map (which is keyed by hashed system-code strings),
so this balanced same-system transaction over existing accounts — whose
accounts' system `IDR` exists — is rejected with `NotFound: system not
found` instead of succeeding. -/
theorem C1_balanced_transaction_rejected_by_system_lookup :
    qadd (qadd 0 ent1.amount) ent2.amount = 0 ∧
    mapGet (genUuidOfUuid ent1.account_id) stS1.accounts = some acct1 ∧
    mapGet (genUuidOfUuid ent2.account_id) stS1.accounts = some acct2 ∧
    mapContains (genUuidOfStr acct1.system_id) stS1.systems = true ∧
    mapContains (genUuidOfStr acct2.system_id) stS1.systems = true ∧
    (Ledger.record_transaction stS1 tx0 [ent1, ent2]).2 =
      .error ⟨.notFound, "system not found: f8e8f250-e09a-d7fb-e09a-d7fbf8e8f250"⟩ := by
  decide

/-- Claim C2. The claim says every record type round-trips through
`to_binary`/`from_binary`, the encode step succeeding. `Entry::to_binary`
matches its amount field against the pattern `I64("amount")` while
`entry_layout` declares `F64("amount")`, so encoding any `Entry` under the
catalog layout hits the catch-all arm and fails — no Entry can be encoded
at all, refuting the round-trip for the Entry type. -/
theorem C2_entry_encode_always_fails (e : Entry) (file : List Nat) :
    (writeEntry file e).2 =
      .error ⟨.invalidData, "unexpected binary field in `Entry` layout: F64(\"amount\")"⟩ :=
  rfl

/-- Claim C3. The claim says a scan yields exactly the live records even with
historical records interleaved, each historical record's bytes being
consumed exactly once. `ConversionGraph::from_binary` does consume a
historical record exactly, but `read_or_skip` then seeks back to the
record's first byte — the liveness byte included — and re-skips with the
layout walker, which misreads the liveness byte as the length prefix and
leaves the cursor misaligned; here the following live record is lost
entirely: the scan returns the empty list where the claim requires
`[actCG]`. (The second conjunct shows the same live record alone is scanned
fine.) -/
theorem C3_historical_record_derails_scan :
    readConversionGraphs cgDemoFile = .ok [] ∧
    readConversionGraphs (writeConversionGraph [] actCG).1 = .ok [actCG] := by
  decide

/-- Claim C4. The claim says that after `append(v)` at offset `o`,
`tombstone(v, o)` succeeds and `read_at(o)` then fails with `DeadRecord`,
the liveness byte at `o` having been overwritten with `0x00`. The ledger
opens its writers with `OpenOptions::append(true)` (db.rs), so under
`O_APPEND` the `0x00` byte the tombstone writes is appended at end of file
instead of overwriting offset `o`: the call returns success, the file ends
with a stray `0x00`, the liveness byte at offset 0 is still `0x01`, and
`read_single` still returns the record. -/
theorem C4_tombstone_appends_instead_of_overwriting :
    (writeSystem [] sysIDR).2 = .ok (0, sysIDR) ∧
    tombstoneSystem (writeSystem [] sysIDR).1 sysIDR 0 =
      ((writeSystem [] sysIDR).1 ++ [0x00], .ok ()) ∧
    ((writeSystem [] sysIDR).1 ++ [0x00]).headD 0 = 0x01 ∧
    readSingleSystem ((writeSystem [] sysIDR).1 ++ [0x00]) 0 = .ok sysIDR := by
  decide

/-- Claim C9. The claim says `create_account(a)` keys the in-memory accounts map
by `a.id` itself, matching the key `load_from_disk` rebuilds under. The
code keys both the map and the index by
`generate_deterministic_uuid(&a.id)` — the SipHash-derived UUID of the
account's UUID — which differs from `a.id`, while `load_from_disk` keys
the rebuilt map by the raw `a.id`; the same account therefore lives under
two different keys before and after a restart. -/
theorem C9_create_account_keys_by_hashed_uuid :
    (Ledger.create_account emptyLedger acct1).2 = .ok () ∧
    (Ledger.create_account emptyLedger acct1).1.accounts =
      [(genUuidOfUuid acct1.id, acct1)] ∧
    (Ledger.create_account emptyLedger acct1).1.account_index =
      [(genUuidOfUuid acct1.id, 0)] ∧
    genUuidOfUuid acct1.id ≠ acct1.id ∧
    loadAccountsMap [acct1] = [(acct1.id, acct1)] := by
  decide

/-- Specification of `tombstone` when the stored record at the offset is
readable: the supplied record is compared with the stored one by `PartialEq`
alone; a mismatch fails with the wrong-record error leaving the file
untouched, a match succeeds and appends the `0x00` liveness write. -/
theorem tombstone_spec {α : Type} (fb : Rdr → BinaryLayout → IoResult (α × Rdr))
    (peq : α → α → Bool) (layout : BinaryLayout) (file : List Nat) (item : α)
    (offset : Nat) (stored : α)
    (h : read_single fb layout file offset = .ok stored) :
    tombstone fb peq layout file item offset =
      (if peq stored item then (file ++ [0x00], .ok ()) else (file, .error wrongRecordErr)) := by
  unfold tombstone
  rw [h]
  by_cases hp : peq stored item
  · simp [hp, wtrWrite]
  · simp [hp, wtrWrite]

/-- Claim C6. For a stored record readable at its offset, `tombstone` compares
the supplied record with it through the record type's `PartialEq` alone —
`System`s by `id`, `ConversionGraph`s by `graph`, `Account`s,
`Transaction`s and `Entry`s by their UUID. On an identity mismatch it fails
with `WrongRecord` and the file is unchanged (and no in-memory state is
involved at all); on an identity match the call succeeds — regardless of
any differing non-identity fields — and performs its single liveness-byte
write (which the append-mode writer appends at end of file, see C4). -/
theorem C6_tombstone_compares_identity_only
    (fS : List Nat) (oS : Nat) (rS wS : System)
    (hS : readSingleSystem fS oS = .ok rS)
    (fC : List Nat) (oC : Nat) (rC wC : ConversionGraph)
    (hC : readSingleConversionGraph fC oC = .ok rC)
    (fA : List Nat) (oA : Nat) (rA wA : Account)
    (hA : readSingleAccount fA oA = .ok rA)
    (fT : List Nat) (oT : Nat) (rT wT : Transaction)
    (hT : readSingleTransaction fT oT = .ok rT)
    (fE : List Nat) (oE : Nat) (rE wE : Entry)
    (hE : readSingleEntry fE oE = .ok rE) :
    tombstoneSystem fS wS oS =
      (if rS.id = wS.id then (fS ++ [0x00], .ok ()) else (fS, .error wrongRecordErr)) ∧
    tombstoneConversionGraph fC wC oC =
      (if rC.graph = wC.graph then (fC ++ [0x00], .ok ()) else (fC, .error wrongRecordErr)) ∧
    tombstoneAccount fA wA oA =
      (if rA.id = wA.id then (fA ++ [0x00], .ok ()) else (fA, .error wrongRecordErr)) ∧
    tombstoneTransaction fT wT oT =
      (if rT.id = wT.id then (fT ++ [0x00], .ok ()) else (fT, .error wrongRecordErr)) ∧
    tombstoneEntry fE wE oE =
      (if rE.id = wE.id then (fE ++ [0x00], .ok ()) else (fE, .error wrongRecordErr)) := by
  refine ⟨?_, ?_, ?_, ?_, ?_⟩
  · rw [tombstoneSystem, tombstone_spec _ _ _ _ _ _ rS hS]
    by_cases h : rS.id = wS.id <;> simp [System.peq, h]
  · rw [tombstoneConversionGraph, tombstone_spec _ _ _ _ _ _ rC hC]
    by_cases h : rC.graph = wC.graph <;> simp [ConversionGraph.peq, h]
  · rw [tombstoneAccount, tombstone_spec _ _ _ _ _ _ rA hA]
    by_cases h : rA.id = wA.id <;> simp [Account.peq, h]
  · rw [tombstoneTransaction, tombstone_spec _ _ _ _ _ _ rT hT]
    by_cases h : rT.id = wT.id <;> simp [Transaction.peq, h]
  · rw [tombstoneEntry, tombstone_spec _ _ _ _ _ _ rE hE]
    by_cases h : rE.id = wE.id <;> simp [Entry.peq, h]

/-- A supplied `System` agreeing with `sysIDR` only on the identity field. -/
def sysAlt : System := ⟨"IDR", "totally different description"⟩

/-- A supplied `ConversionGraph` agreeing with `actCG` only on `graph`. -/
def cgAlt : ConversionGraph := ⟨"USD -> IDR", 999, 42⟩

/-- A supplied `Account` agreeing with `acct1` only on `id`. -/
def acctAlt : Account := ⟨demoU1, "other name", .expense, 123, "USD"⟩

/-- A supplied `Transaction` agreeing with `tx0` only on `id`. -/
def txAlt : Transaction := ⟨demoUT, "other description", 5, none⟩

/-- A supplied `Entry` agreeing with `ent1` only on `id`. -/
def entAlt : Entry := ⟨ent1.id, demoU2, demoU2, -5⟩

/-- A hand-laid entry record file (entries cannot be produced by the
encoder, see C2, but the decoder reads them fine). -/
def entDemoFile : List Nat :=
  [1] ++ ent1.id.bytes ++ ent1.transaction_id.bytes ++ ent1.account_id.bytes ++
    leBytes 8 (f64Bits ent1.amount)

/-- Witness for C6: concrete one-record files of all five types; every
supplied record matches the stored identity while differing in non-identity
fields, and each tombstone call succeeds. -/
theorem C6_tombstone_compares_identity_only_witness :
    tombstoneSystem (writeSystem [] sysIDR).1 sysAlt 0 =
      ((writeSystem [] sysIDR).1 ++ [0x00], .ok ()) ∧
    tombstoneConversionGraph (writeConversionGraph [] actCG).1 cgAlt 0 =
      ((writeConversionGraph [] actCG).1 ++ [0x00], .ok ()) ∧
    tombstoneAccount (writeAccount [] acct1).1 acctAlt 0 =
      ((writeAccount [] acct1).1 ++ [0x00], .ok ()) ∧
    tombstoneTransaction (writeTransaction [] tx0).1 txAlt 0 =
      ((writeTransaction [] tx0).1 ++ [0x00], .ok ()) ∧
    tombstoneEntry entDemoFile entAlt 0 = (entDemoFile ++ [0x00], .ok ()) := by
  obtain ⟨h1, h2, h3, h4, h5⟩ :=
    C6_tombstone_compares_identity_only
      (writeSystem [] sysIDR).1 0 sysIDR sysAlt (by decide)
      (writeConversionGraph [] actCG).1 0 actCG cgAlt (by decide)
      (writeAccount [] acct1).1 0 acct1 acctAlt (by decide)
      (writeTransaction [] tx0).1 0 tx0 txAlt (by decide)
      entDemoFile 0 ent1 entAlt (by decide)
  exact ⟨by rw [h1]; decide, by rw [h2]; decide, by rw [h3]; decide,
         by rw [h4]; decide, by rw [h5]; decide⟩

/-- The bytes of the encoded `sysIDR` record without its liveness byte. -/
def sysRecordPayload : List Nat := ((writeSystem [] sysIDR).1).drop 1

/-- Claim C7 counterexample: the claim says any liveness byte other than `0x00`
and `0x01` is treated as tombstoned (`read_single` failing with
`DeadRecord`, the scanner skipping the record). With liveness byte `0x02`
the record is treated as live instead: `is_tombstone_byte` accepts only
`0x00`, `read_single` decodes and returns the record, and the scan
surfaces it. -/
theorem C7_liveness_byte_2_is_treated_as_live :
    is_tombstone_byte 0x02 = false ∧
    readSingleSystem (0x02 :: sysRecordPayload) 0 = .ok sysIDR ∧
    readSystems (0x02 :: sysRecordPayload) = .ok [sysIDR] := by
  decide

/-- Claim C7 as amended: only `0x00` is treated as tombstoned — for every byte
value `b ≠ 0x00` (not just `0x01`), a reader treats the record as live:
`read_single` decodes and returns it and the scanner surfaces it. -/
theorem C7_only_zero_is_tombstone :
    ∀ b : Nat, b < 256 → b ≠ 0 →
      is_tombstone_byte b = false ∧
      readSingleSystem (b :: sysRecordPayload) 0 = .ok sysIDR ∧
      readSystems (b :: sysRecordPayload) = .ok [sysIDR] := by
  decide

/-- Witness for C7's amended theorem at the liveness byte `0x07`. -/
theorem C7_only_zero_is_tombstone_witness :
    is_tombstone_byte 0x07 = false ∧
    readSingleSystem (0x07 :: sysRecordPayload) 0 = .ok sysIDR ∧
    readSystems (0x07 :: sysRecordPayload) = .ok [sysIDR] :=
  C7_only_zero_is_tombstone 0x07 (by decide) (by decide)

/-- The byte image `Transaction::to_binary` appends for a transaction whose
description fits its `U8` length prefix: liveness byte, id, length-prefixed
description, `U32`-length-prefixed metadata bytes, timestamp. -/
def transactionBytes (t : Transaction) : List Nat :=
  [1] ++ t.id.bytes ++ [(utf8Bytes t.description).length] ++ utf8Bytes t.description ++
    leBytes 4 ((t.metadata.getD []).length % 2 ^ 32) ++ t.metadata.getD [] ++ i64Le t.timestamp

/-- A transaction whose description does not fit the `U8` length prefix. -/
def tx256 : Transaction := ⟨demoUT, ⟨List.replicate 256 'a'⟩, 0, none⟩

/-- Claim C10 counterexample: the claim says `record_transaction(tx, [])` always
succeeds. For a transaction whose description exceeds 255 bytes the write
step fails (`` `description` is too long to encode ``), so the call errors
even though both balance checks are vacuously satisfied. -/
theorem C10_long_description_fails :
    (Ledger.record_transaction emptyLedger tx256 []).2 =
      .error ⟨.invalidData, "`description` is too long to encode"⟩ := by
  decide

/-- Claim C10 as amended: for every ledger state and every transaction whose
UTF-8 description fits the `U8` length prefix (≤ 255 bytes),
`record_transaction(tx, [])` succeeds: both balance checks are vacuously
satisfied, no entry record is written (every entry-related field of the
state is untouched), and `tx` is appended to the transactions file, indexed
under `generate_deterministic_uuid(&tx.id)`, and inserted into the
in-memory transactions map under `tx.id`. -/
theorem C10_empty_entries_succeeds (st : Ledger) (tx : Transaction)
    (hd : (utf8Bytes tx.description).length ≤ 255) :
    Ledger.record_transaction st tx [] =
      ({ st with
          transactionsFile := st.transactionsFile ++ transactionBytes tx,
          transaction_index :=
            mapInsert (genUuidOfUuid tx.id) st.transactionsFile.length st.transaction_index,
          transactions := mapInsert tx.id tx st.transactions }, .ok ()) := by
  unfold Ledger.record_transaction
  simp only [List.foldl_nil]
  rw [if_neg (by decide : ¬ f64Epsilon < qabs 0)]
  simp only [buildSystemEntries, checkSystemEntries, writeEntriesLoop]
  unfold writeTransaction storageWrite Transaction.to_binary
  simp only [transaction_layout, transactionEncFields, wchain, wtrWrite,
    write_length_prefixed_field, if_pos hd]
  simp [transactionBytes, List.append_assoc]

/-! ## Toolkit lemmas for the general codec proofs -/

theorem readExact_spec (data : List Nat) (p n : Nat) (chunk rest : List Nat)
    (h : data.drop p = chunk ++ rest) (hn : chunk.length = n) (hpos : 0 < n) :
    readExact n ⟨data, p⟩ = .ok (chunk, ⟨data, p + n⟩) := by
  have hlen : (data.drop p).length = data.length - p := List.length_drop p data
  rw [h] at hlen
  simp only [List.length_append, hn] at hlen
  have hple : p ≤ data.length := by
    by_contra hc
    have : data.drop p = [] := List.drop_eq_nil_of_le (by omega)
    rw [this] at h
    have := congrArg List.length h
    simp [hn] at this
    omega
  unfold readExact
  try dsimp only
  rw [if_pos (by omega), h, ← hn, List.take_left]

theorem drop_after (data : List Nat) (p n : Nat) (chunk rest : List Nat)
    (h : data.drop p = chunk ++ rest) (hn : chunk.length = n) :
    data.drop (p + n) = rest := by
  rw [← List.drop_drop, h, ← hn, List.drop_left]

theorem utf8Char_ascii {n : Nat} (h : n < 128) : utf8Char n = [n] := by
  unfold utf8Char
  rw [if_pos (by omega)]

theorem flatMapUtf8_ascii (l : List Char) (h : ∀ c ∈ l, c.toNat < 128) :
    l.flatMap (fun c => utf8Char c.toNat) = l.map Char.toNat := by
  induction l with
  | nil => rfl
  | cons c t ih =>
    simp only [List.flatMap_cons, List.map_cons]
    rw [utf8Char_ascii (h c (by simp)), ih (fun x hx => h x (by simp [hx]))]
    rfl

theorem utf8Bytes_ascii (s : String) (h : ∀ c ∈ s.data, c.toNat < 128) :
    utf8Bytes s = s.data.map Char.toNat :=
  flatMapUtf8_ascii s.data h

theorem utf8Bytes_append (a b : String) :
    utf8Bytes (a ++ b) = utf8Bytes a ++ utf8Bytes b := by
  unfold utf8Bytes
  rw [String.data_append, List.flatMap_append]

theorem utf8DecodeChar_ascii (n : Nat) (h : n < 128) (rest : List Nat) :
    utf8DecodeChar (n :: rest) = some (n, rest) := by
  unfold utf8DecodeChar
  try dsimp only
  rw [if_pos h]

theorem ofNatAux_toNat (c : Char) (h : c.toNat.isValidChar) :
    Char.ofNatAux c.toNat h = c := by
  have hx := Char.ofNat_toNat c
  rwa [Char.ofNat, dif_pos h] at hx

theorem utf8Go_ascii (fuel : Nat) (l : List Char) (h : ∀ c ∈ l, c.toNat < 128)
    (hf : l.length ≤ fuel) :
    utf8Decode.go fuel (l.map Char.toNat) = some l := by
  induction fuel generalizing l with
  | zero =>
    cases l with
    | nil => rfl
    | cons c t => simp at hf
  | succ f ih =>
    cases l with
    | nil => rfl
    | cons c t =>
      have hc : c.toNat < 128 := h c (by simp)
      have hft : t.length ≤ f := by simp only [List.length_cons] at hf; omega
      simp only [List.map_cons]
      rw [utf8Decode.go, utf8DecodeChar_ascii _ hc]
      dsimp only
      rw [dif_pos (Or.inl (by omega : c.toNat < 55296))]
      rw [ih t (fun x hx => h x (by simp [hx])) hft]
      simp [ofNatAux_toNat]
      simp

theorem utf8DecodeOrEmpty_ascii (s : String) (h : ∀ c ∈ s.data, c.toNat < 128) :
    utf8DecodeOrEmpty (utf8Bytes s) = s := by
  unfold utf8DecodeOrEmpty utf8Decode
  rw [utf8Bytes_ascii s h, utf8Go_ascii _ _ h (by simp)]

theorem capBeforeBracket_closed (g : List Char) (h : ']' ∉ g) :
    capBeforeBracket (g ++ [']']) = some g := by
  induction g with
  | nil => rfl
  | cons c t ih =>
    have hc : (c == ']') = false := by
      simp only [beq_eq_false_iff_ne, ne_eq]
      intro he
      exact h (by simp [he])
    simp only [List.cons_append, capBeforeBracket, hc, List.append_eq,
      Bool.false_eq_true, if_false]
    rw [ih (fun hm => h (by simp [hm]))]
    rfl

theorem recCapture_wrapped (g : List Char) (h : ']' ∉ g) :
    recCapture ('C' :: '[' :: (g ++ [']'])) = some g := by
  rw [recCapture, capBeforeBracket_closed g h]

/-- The payload bytes of an encoded live conversion-graph record after its
liveness byte: `U8` length prefix over the bracketed marker string
`"C[" ++ g ++ "]"`, that string's UTF-8 bytes, then the 8-byte rate and the
8-byte timestamp. -/
def cgPayloadBytes (g : String) (rb tb : List Nat) : List Nat :=
  [(utf8Bytes g).length + 3] ++ utf8Bytes ("C[" ++ g ++ "]") ++ rb ++ tb

/-- A whole encoded live conversion-graph record. -/
def cgRecordBytes (g : String) (rb tb : List Nat) : List Nat :=
  1 :: cgPayloadBytes g rb tb

theorem utf8Bytes_bracketed (g : String) :
    utf8Bytes ("C[" ++ g ++ "]") = [67] ++ ([91] ++ (utf8Bytes g ++ [93])) := by
  rw [utf8Bytes_append, utf8Bytes_append]
  simp [List.append_assoc]
  rfl

/-- Decoding one well-formed live conversion-graph record from position `p`
recovers exactly the graph string, the rate bits and the timestamp bytes,
leaving the cursor at the record's end. -/
theorem cg_from_binary_at (data : List Nat) (p : Nat) (g : String) (rb tb rest : List Nat)
    (hdrop : data.drop p = cgPayloadBytes g rb tb ++ rest)
    (hascii : ∀ c ∈ g.data, c.toNat < 128)
    (hnb : ']' ∉ g.data)
    (hrb : rb.length = 8) (htb : tb.length = 8) :
    ConversionGraph.from_binary ⟨data, p⟩ conversion_graph_layout =
      .ok (⟨g, f64OfBits (fromLe rb), i64OfLe tb⟩,
           ⟨data, p + ((utf8Bytes g).length + 20)⟩) := by
  have hCascii : ∀ c ∈ ("C[" ++ g ++ "]").data, c.toNat < 128 := by
    intro c hc
    rw [String.data_append, String.data_append,
      show ("C[".data) = ['C', '['] from rfl, show ("]".data) = [']'] from rfl] at hc
    simp only [List.mem_append, List.mem_cons, List.mem_singleton,
      List.not_mem_nil, or_false] at hc
    rcases hc with ((rfl | rfl) | hcg) | rfl
    · decide
    · decide
    · exact hascii c hcg
    · decide
  have h0 : data.drop p =
      [(utf8Bytes g).length + 3] ++
        (([67] ++ ([91] ++ (utf8Bytes g ++ [93]))) ++ (rb ++ (tb ++ rest))) := by
    rw [hdrop]
    simp [cgPayloadBytes, utf8Bytes_bracketed, List.append_assoc]
  have e1 := readExact_spec data p 1 _ _ h0 rfl (by omega)
  have h1 : data.drop (p + 1) =
      [67] ++ (([91] ++ (utf8Bytes g ++ [93])) ++ (rb ++ (tb ++ rest))) := by
    have := drop_after data p 1 _ _ h0 rfl
    rw [this]
    simp [List.append_assoc]
  have e2 := readExact_spec data (p + 1) 1 _ _ h1 rfl (by omega)
  have h2 : data.drop (p + 1 + 1) =
      ([91] ++ (utf8Bytes g ++ [93])) ++ (rb ++ (tb ++ rest)) :=
    drop_after data (p + 1) 1 _ _ h1 rfl
  have e3 := readExact_spec data (p + 1 + 1) ((utf8Bytes g).length + 2) _ _ h2
    (by simp) (by omega)
  have h3 : data.drop (p + 1 + 1 + ((utf8Bytes g).length + 2)) = rb ++ (tb ++ rest) :=
    drop_after data (p + 1 + 1) _ _ _ h2 (by simp)
  have e4 := readExact_spec data (p + 1 + 1 + ((utf8Bytes g).length + 2)) 8 _ _ h3 hrb
    (by omega)
  have h4 : data.drop (p + 1 + 1 + ((utf8Bytes g).length + 2) + 8) = tb ++ rest :=
    drop_after data _ 8 _ _ h3 hrb
  have e5 := readExact_spec data (p + 1 + 1 + ((utf8Bytes g).length + 2) + 8) 8 _ _ h4 htb
    (by omega)
  have hdec : utf8DecodeOrEmpty (67 :: ([91] ++ (utf8Bytes g ++ [93]))) = "C[" ++ g ++ "]" := by
    have := utf8DecodeOrEmpty_ascii ("C[" ++ g ++ "]") hCascii
    rwa [utf8Bytes_bracketed] at this
  have hcap : recCapture ("C[" ++ g ++ "]").data = some g.data := by
    have hdata : ("C[" ++ g ++ "]").data = 'C' :: '[' :: (g.data ++ [']']) := by
      rw [String.data_append, String.data_append]
      rfl
    rw [hdata]
    exact recCapture_wrapped g.data hnb
  unfold ConversionGraph.from_binary
  rw [show conversion_graph_layout.fields =
    [.lengthPrefixed .u8 "graph", .f64 "rate", .i64 "rate_since"] from rfl]
  rw [cgDecFields]
  try dsimp only
  rw [if_pos (by rfl)]
  unfold readLpLen
  rw [e1]
  dsimp only [ebind]
  rw [show fromLe [(utf8Bytes g).length + 3] = (utf8Bytes g).length + 3 by
    simp [fromLe]]
  rw [e2]
  dsimp only [ebind, List.headD]
  rw [if_neg (by decide : ¬ ((67 : Nat) != 67) = true)]
  rw [show (utf8Bytes g).length + 3 - 1 = (utf8Bytes g).length + 2 from by omega]
  rw [e3]
  dsimp only [ebind]
  rw [show (67 : Nat) :: ([91] ++ (utf8Bytes g ++ [93])) =
    67 :: ([91] ++ (utf8Bytes g ++ [93])) from rfl]
  rw [hdec, hcap]
  rw [cgDecFields]
  try dsimp only
  rw [if_pos (by rfl)]
  rw [e4]
  dsimp only [ebind]
  rw [cgDecFields]
  try dsimp only
  rw [if_pos (by rfl)]
  rw [e5]
  dsimp only [ebind]
  rw [cgDecFields]
  have hpos : p + 1 + 1 + ((utf8Bytes g).length + 2) + 8 + 8 =
      p + ((utf8Bytes g).length + 20) := by omega
  rw [hpos]

/-- `read_or_skip` over a well-formed live conversion-graph record yields
the decoded record and leaves the cursor at the next record boundary. -/
theorem cg_read_or_skip_at (data : List Nat) (p : Nat) (g : String) (rb tb rest : List Nat)
    (hdrop : data.drop p = cgRecordBytes g rb tb ++ rest)
    (hascii : ∀ c ∈ g.data, c.toNat < 128)
    (hnb : ']' ∉ g.data)
    (hrb : rb.length = 8) (htb : tb.length = 8) :
    read_or_skip ConversionGraph.from_binary ConversionGraph.skip_bytes_fields
        conversion_graph_layout ⟨data, p⟩ =
      (⟨data, p + ((utf8Bytes g).length + 21)⟩,
       .ok ⟨g, f64OfBits (fromLe rb), i64OfLe tb⟩) := by
  have h0 : data.drop p = [1] ++ (cgPayloadBytes g rb tb ++ rest) := by
    rw [hdrop]
    rfl
  have e1 := readExact_spec data p 1 _ _ h0 rfl (by omega)
  have h1 := drop_after data p 1 _ _ h0 rfl
  have efb := cg_from_binary_at data (p + 1) g rb tb rest h1 hascii hnb hrb htb
  unfold read_or_skip
  rw [e1]
  dsimp only [List.headD]
  rw [if_neg (by decide : ¬ is_tombstone_byte 1 = true)]
  rw [efb]
  try dsimp only
  rw [show p + 1 + ((utf8Bytes g).length + 20) = p + ((utf8Bytes g).length + 21) from by omega]

/-- `read_or_skip` at or past end of file fails with `UnexpectedEof`. -/
theorem read_or_skip_eof {α : Type} (fb : Rdr → BinaryLayout → IoResult (α × Rdr))
    (sk : List BinaryField → Rdr → IoResult Rdr) (layout : BinaryLayout)
    (data : List Nat) (p : Nat) (h : data.length ≤ p) :
    read_or_skip fb sk layout ⟨data, p⟩ = (⟨data, p⟩, .error eofErr) := by
  unfold read_or_skip readExact
  try dsimp only
  rw [if_neg (by omega)]

/-- One successful scan-loop step over a live conversion-graph record. -/
theorem scanLoop_cg_step (fuel : Nat) (data : List Nat) (p : Nat) (acc : List ConversionGraph)
    (g : String) (rb tb rest : List Nat)
    (hdrop : data.drop p = cgRecordBytes g rb tb ++ rest)
    (hascii : ∀ c ∈ g.data, c.toNat < 128)
    (hnb : ']' ∉ g.data)
    (hrb : rb.length = 8) (htb : tb.length = 8) :
    scanLoop ConversionGraph.from_binary ConversionGraph.skip_bytes_fields
        conversion_graph_layout (fuel + 1) ⟨data, p⟩ acc =
      scanLoop ConversionGraph.from_binary ConversionGraph.skip_bytes_fields
        conversion_graph_layout fuel ⟨data, p + ((utf8Bytes g).length + 21)⟩
        (⟨g, f64OfBits (fromLe rb), i64OfLe tb⟩ :: acc) := by
  rw [scanLoop, cg_read_or_skip_at data p g rb tb rest hdrop hascii hnb hrb htb]

/-- The scan loop terminates normally at end of file. -/
theorem scanLoop_eof {α : Type} (fb : Rdr → BinaryLayout → IoResult (α × Rdr))
    (sk : List BinaryField → Rdr → IoResult Rdr) (layout : BinaryLayout)
    (fuel : Nat) (data : List Nat) (p : Nat) (acc : List α) (h : data.length ≤ p) :
    scanLoop fb sk layout (fuel + 1) ⟨data, p⟩ acc = (⟨data, p⟩, .ok acc.reverse) := by
  rw [scanLoop, read_or_skip_eof fb sk layout data p h]
  simp [eofErr]

/-- A full scan over a file holding exactly two well-formed live
conversion-graph records yields the two records in file order. -/
theorem readScan_two_cg (g1 g2 : String) (rb1 tb1 rb2 tb2 : List Nat)
    (ha1 : ∀ c ∈ g1.data, c.toNat < 128) (hn1 : ']' ∉ g1.data)
    (ha2 : ∀ c ∈ g2.data, c.toNat < 128) (hn2 : ']' ∉ g2.data)
    (hrb1 : rb1.length = 8) (htb1 : tb1.length = 8)
    (hrb2 : rb2.length = 8) (htb2 : tb2.length = 8) :
    readConversionGraphs (cgRecordBytes g1 rb1 tb1 ++ cgRecordBytes g2 rb2 tb2) =
      .ok [⟨g1, f64OfBits (fromLe rb1), i64OfLe tb1⟩,
           ⟨g2, f64OfBits (fromLe rb2), i64OfLe tb2⟩] := by
  set data := cgRecordBytes g1 rb1 tb1 ++ cgRecordBytes g2 rb2 tb2 with hdata
  have hl1 : (cgRecordBytes g1 rb1 tb1).length = (utf8Bytes g1).length + 21 := by
    simp [cgRecordBytes, cgPayloadBytes, utf8Bytes_bracketed, hrb1, htb1]
    try omega
  have hl2 : (cgRecordBytes g2 rb2 tb2).length = (utf8Bytes g2).length + 21 := by
    simp [cgRecordBytes, cgPayloadBytes, utf8Bytes_bracketed, hrb2, htb2]
    try omega
  have hlen : data.length = ((utf8Bytes g1).length + 21) + ((utf8Bytes g2).length + 21) := by
    rw [hdata]
    simp [hl1, hl2]
  have hd0 : data.drop 0 = cgRecordBytes g1 rb1 tb1 ++ cgRecordBytes g2 rb2 tb2 := by
    rw [hdata, List.drop_zero]
  have hd1 : data.drop (0 + ((utf8Bytes g1).length + 21)) =
      cgRecordBytes g2 rb2 tb2 ++ [] := by
    have := drop_after data 0 ((utf8Bytes g1).length + 21) _ _ hd0 hl1
    rw [this]
    simp
  unfold readConversionGraphs readScan
  obtain ⟨K, hK⟩ : ∃ K, data.length + 1 = (K + 1) + 1 :=
    ⟨data.length - 1, by omega⟩
  rw [hK]
  rw [scanLoop_cg_step (K + 1) data 0 [] g1 rb1 tb1 _ hd0 ha1 hn1 hrb1 htb1]
  obtain ⟨K2, hK2⟩ : ∃ K2, K + 1 = K2 + 1 := ⟨K, rfl⟩
  rw [hK2]
  rw [scanLoop_cg_step K2 data _ _ g2 rb2 tb2 [] hd1 ha2 hn2 hrb2 htb2]
  obtain ⟨K3, hK3⟩ : ∃ K3, K2 = K3 + 1 := ⟨K2 - 1, by omega⟩
  rw [hK3]
  rw [scanLoop_eof _ _ _ K3 data _ _ (by omega)]
  rfl

theorem utf8Bytes_bracketed_length (g : String) :
    (utf8Bytes ("C[" ++ g ++ "]")).length = (utf8Bytes g).length + 3 := by
  rw [utf8Bytes_bracketed]
  simp
  try omega

/-- `write::<ConversionGraph>` of an active-classified record whose
bracketed key fits the `U8` length prefix appends exactly the well-formed
record bytes and returns the end-of-file offset. -/
theorem writeConversionGraph_active (file : List Nat) (g : String) (r : ℚ) (t : Int)
    (hcls : classify_graph_key ⟨g, r, t⟩ = "active")
    (hlen : (utf8Bytes g).length + 3 ≤ 255) :
    writeConversionGraph file ⟨g, r, t⟩ =
      (file ++ cgRecordBytes g (leBytes 8 (f64Bits r)) (i64Le t),
       .ok (file.length, ⟨g, r, t⟩)) := by
  have hfield : cgGraphFieldBytes ⟨g, r, t⟩ = .ok (utf8Bytes ("C[" ++ g ++ "]")) := by
    unfold cgGraphFieldBytes
    rw [hcls]
    rfl
  unfold writeConversionGraph storageWrite ConversionGraph.to_binary
  rw [show conversion_graph_layout.fields =
    [.lengthPrefixed .u8 "graph", .f64 "rate", .i64 "rate_since"] from rfl]
  rw [cgEncFields]
  try dsimp only
  rw [if_pos (by decide : (("graph" : String) == "graph") = true)]
  rw [hfield]
  try dsimp only
  rw [write_length_prefixed_field]
  try dsimp only
  rw [if_pos (by rw [utf8Bytes_bracketed_length]; exact hlen)]
  rw [wchain]
  try dsimp only
  rw [cgEncFields]
  try dsimp only
  rw [if_pos (by decide : (("rate" : String) == "rate") = true)]
  rw [wchain]
  try dsimp only
  rw [cgEncFields]
  try dsimp only
  rw [if_pos (by decide : (("rate_since" : String) == "rate_since") = true)]
  rw [wchain]
  try dsimp only
  rw [cgEncFields]
  simp [wtrWrite, cgRecordBytes, cgPayloadBytes, utf8Bytes_bracketed_length,
    List.append_assoc]

/-- `read_single` at offset 0 of a file beginning with one well-formed live
conversion-graph record returns that record. -/
theorem cg_read_single_zero (g : String) (rb tb rest : List Nat)
    (hascii : ∀ c ∈ g.data, c.toNat < 128)
    (hnb : ']' ∉ g.data)
    (hrb : rb.length = 8) (htb : tb.length = 8) :
    readSingleConversionGraph (cgRecordBytes g rb tb ++ rest) 0 =
      .ok ⟨g, f64OfBits (fromLe rb), i64OfLe tb⟩ := by
  have h0 : (cgRecordBytes g rb tb ++ rest).drop 0 = [1] ++ (cgPayloadBytes g rb tb ++ rest) := by
    rw [List.drop_zero]
    rfl
  have e1 := readExact_spec _ 0 1 _ _ h0 rfl (by omega)
  have h1 := drop_after _ 0 1 _ _ h0 rfl
  have efb := cg_from_binary_at _ (0 + 1) g rb tb rest h1 hascii hnb hrb htb
  unfold readSingleConversionGraph read_single
  rw [show seekTo 0 ⟨cgRecordBytes g rb tb ++ rest, 0⟩ =
    (⟨cgRecordBytes g rb tb ++ rest, 0⟩ : Rdr) from rfl]
  rw [e1]
  dsimp only [ebind, List.headD]
  rw [if_neg (by decide : ¬ is_tombstone_byte 1 = true)]
  rw [efb]

/-- The `"A -> B"` record of the C8 counterexample. -/
def cgAB : ConversionGraph := ⟨"A -> B", 1, 0⟩

/-- Claim C8 counterexample: the claim says the encoded graph field is the marker
`'C'` followed immediately by the payload `"A -> B"` with the length prefix
covering marker plus payload (7 bytes). `ConversionGraph::to_binary`
actually wraps the payload in square brackets: the field is the 9-byte
string `"C[A -> B]"` behind a length prefix of 9, which differs from the
claimed 'C'-plus-payload form. The decode side still recovers exactly
`"A -> B"` (from inside the brackets). -/
theorem C8_marker_is_bracketed :
    cgGraphFieldBytes cgAB = .ok (utf8Bytes "C[A -> B]") ∧
    (write_length_prefixed_field (utf8Bytes "C[A -> B]") "graph" .u8 ⟨[]⟩).1.data =
      [9] ++ utf8Bytes "C[A -> B]" ∧
    [9] ++ utf8Bytes "C[A -> B]" ≠ [7] ++ [67] ++ utf8Bytes "A -> B" ∧
    readSingleConversionGraph (writeConversionGraph [] cgAB).1 0 = .ok cgAB := by
  decide

/-- Claim C8 as amended: for every active-classified graph string `g` (no `']'`,
ASCII, bracketed form fitting the `U8` prefix), the encoded graph field is
the length prefix `len(g)+3` followed by `'C'`, `'['`, the payload `g`, and
`']'` — marker and payload are separated by a bracket, the length prefix
covering all of them — and decoding the record recovers exactly the string
`g` (and the rate and timestamp). -/
theorem C8_bracketed_marker_roundtrip (file : List Nat) (g : String) (r : ℚ) (t : Int)
    (hcls : classify_graph_key ⟨g, r, t⟩ = "active")
    (hlen : (utf8Bytes g).length + 3 ≤ 255)
    (hascii : ∀ c ∈ g.data, c.toNat < 128)
    (hnb : ']' ∉ g.data)
    (hr : f64OfBits (fromLe (leBytes 8 (f64Bits r))) = r)
    (ht : i64OfLe (i64Le t) = t) :
    (writeConversionGraph file ⟨g, r, t⟩).1 =
      file ++ (1 :: ([(utf8Bytes g).length + 3] ++
        ([67] ++ ([91] ++ (utf8Bytes g ++ [93]))) ++
        leBytes 8 (f64Bits r) ++ i64Le t)) ∧
    readSingleConversionGraph (((writeConversionGraph file ⟨g, r, t⟩).1).drop file.length) 0 =
      .ok ⟨g, r, t⟩ := by
  have hw := writeConversionGraph_active file g r t hcls hlen
  have hrb : (leBytes 8 (f64Bits r)).length = 8 := by simp [leBytes]
  have htb : (i64Le t).length = 8 := by simp [i64Le, leBytes]
  constructor
  · rw [hw]
    simp [cgRecordBytes, cgPayloadBytes, utf8Bytes_bracketed, List.append_assoc]
  · rw [hw]
    dsimp only
    rw [List.drop_left]
    have := cg_read_single_zero g (leBytes 8 (f64Bits r)) (i64Le t) [] hascii hnb hrb htb
    rw [List.append_nil] at this
    rw [this, hr, ht]

/-- Witness for C8's amended theorem at the record `"A -> B"`, rate 1,
timestamp 0. -/
theorem C8_bracketed_marker_roundtrip_witness :
    (writeConversionGraph [] ⟨"A -> B", 1, 0⟩).1 =
      [] ++ (1 :: ([(utf8Bytes "A -> B").length + 3] ++
        ([67] ++ ([91] ++ (utf8Bytes "A -> B" ++ [93]))) ++
        leBytes 8 (f64Bits 1) ++ i64Le 0)) ∧
    readSingleConversionGraph (((writeConversionGraph [] ⟨"A -> B", 1, 0⟩).1).drop
      ([] : List Nat).length) 0 = .ok ⟨"A -> B", 1, 0⟩ :=
  C8_bracketed_marker_roundtrip [] "A -> B" 1 0 (by decide) (by decide)
    (by decide) (by decide) (by decide) (by decide)

/-- Claim C5. After `create_conversion_graph` on graph string `"X <-> Y"` with
rate `r` — both systems existing, no live record yet under either derived
direction key, the conversion-graphs file empty — the call succeeds and a
full scan of the file yields exactly two live records: `"X -> Y"` at rate
`r` and `"Y -> X"` at rate `1 / r`, both carrying the identical `rate_since`
value `t` (the caller's, which the `"<->"` arm leaves untouched). The rate
hypotheses say `r` and `1 / r` survive the 8-byte IEEE-754 field, the
timestamp hypothesis that `t` fits a signed 64-bit integer. -/
theorem C5_bidirectional_creates_both_directions (st : Ledger) (r : ℚ) (t now : Int)
    (hX : mapContains (genUuidOfStr "X") st.systems = true)
    (hY : mapContains (genUuidOfStr "Y") st.systems = true)
    (hF : mapGet (genUuidOfStr "X -> Y") st.conversion_graphs = none)
    (hR : mapGet (genUuidOfStr "Y -> X") st.conversion_graphs = none)
    (hfile : st.conversionGraphsFile = [])
    (hr : f64OfBits (fromLe (leBytes 8 (f64Bits r))) = r)
    (hrinv : f64OfBits (fromLe (leBytes 8 (f64Bits (qdiv 1 r)))) = qdiv 1 r)
    (ht : i64OfLe (i64Le t) = t) :
    (Ledger.create_conversion_graph st ⟨"X <-> Y", r, t⟩ now).2 = .ok () ∧
    readConversionGraphs
        (Ledger.create_conversion_graph st ⟨"X <-> Y", r, t⟩ now).1.conversionGraphsFile =
      .ok [⟨"X -> Y", r, t⟩, ⟨"Y -> X", 1 / r, t⟩] := by
  have hq : qdiv 1 r = 1 / r := qdiv_eq 1 r
  have hrb : (leBytes 8 (f64Bits r)).length = 8 := by simp [leBytes]
  have hrb2 : (leBytes 8 (f64Bits (qdiv 1 r))).length = 8 := by simp [leBytes]
  have htb : (i64Le t).length = 8 := by simp [i64Le, leBytes]
  have hmain : Ledger.create_conversion_graph st ⟨"X <-> Y", r, t⟩ now =
      Ledger.cgWriteBidirectional st ⟨"X <-> Y", r, t⟩ "X -> Y" "Y -> X" := by
    unfold Ledger.create_conversion_graph
    rw [show splitWs "X <-> Y" = ["X", "<->", "Y"] from rfl]
    rw [if_neg (by decide : ¬ ([("X" : String), "<->", "Y"].length ≠ 3))]
    try dsimp only
    rw [if_neg (by rw [show [("X" : String), "<->", "Y"].getD 0 "" = "X" from rfl, hX]; decide)]
    rw [if_neg (by rw [show [("X" : String), "<->", "Y"].getD 2 "" = "Y" from rfl, hY]; decide)]
    rw [if_neg (by decide : ¬ (([("X" : String), "<->", "Y"].getD 1 "" == "->") = true))]
    rw [if_neg (by decide : ¬ (([("X" : String), "<->", "Y"].getD 1 "" == "<-") = true))]
    rw [if_pos (by decide : (([("X" : String), "<->", "Y"].getD 1 "" == "<->") = true))]
    rw [show ([("X" : String), "<->", "Y"].getD 0 "" ++ " -> " ++
      [("X" : String), "<->", "Y"].getD 2 "") = "X -> Y" from rfl]
    rw [show ([("X" : String), "<->", "Y"].getD 2 "" ++ " -> " ++
      [("X" : String), "<->", "Y"].getD 0 "") = "Y -> X" from rfl]
    rw [hF, hR]
  have hbid : Ledger.cgWriteBidirectional st ⟨"X <-> Y", r, t⟩ "X -> Y" "Y -> X" =
      ({ st with
          conversionGraphsFile :=
            cgRecordBytes "X -> Y" (leBytes 8 (f64Bits r)) (i64Le t) ++
              cgRecordBytes "Y -> X" (leBytes 8 (f64Bits (qdiv 1 r))) (i64Le t),
          conversion_graphs :=
            mapInsert (genUuidOfStr "Y -> X") ⟨"Y -> X", qdiv 1 r, t⟩
              (mapInsert (genUuidOfStr "X -> Y") ⟨"X -> Y", r, t⟩ st.conversion_graphs),
          conversion_graph_index :=
            mapInsert (genUuidOfStr "Y -> X")
              (cgRecordBytes "X -> Y" (leBytes 8 (f64Bits r)) (i64Le t)).length
              (mapInsert (genUuidOfStr "X -> Y") 0 st.conversion_graph_index) }, .ok ()) := by
    unfold Ledger.cgWriteBidirectional
    rw [hfile]
    dsimp only
    rw [writeConversionGraph_active [] "X -> Y" r t rfl (by decide)]
    try dsimp only
    rw [writeConversionGraph_active _ "Y -> X" (qdiv 1 r) t rfl (by decide)]
    try dsimp only
    simp
  rw [hmain, hbid]
  refine ⟨rfl, ?_⟩
  try dsimp only
  rw [readScan_two_cg "X -> Y" "Y -> X" _ _ _ _ (by decide) (by decide) (by decide) (by decide)
    hrb htb hrb2 htb]
  rw [hr, hrinv, ht, hq]

/-- A ledger holding just the two systems `X` and `Y`. -/
def stXY : Ledger :=
  (Ledger.create_system (Ledger.create_system emptyLedger ⟨"X", "unit X"⟩).1 ⟨"Y", "unit Y"⟩).1

/-- Witness for C5 on the two-system ledger at rate 2 and timestamp 777. -/
theorem C5_bidirectional_creates_both_directions_witness :
    (Ledger.create_conversion_graph stXY ⟨"X <-> Y", 2, 777⟩ 999).2 = .ok () ∧
    readConversionGraphs
        (Ledger.create_conversion_graph stXY ⟨"X <-> Y", 2, 777⟩ 999).1.conversionGraphsFile =
      .ok [⟨"X -> Y", 2, 777⟩, ⟨"Y -> X", 1 / 2, 777⟩] :=
  C5_bidirectional_creates_both_directions stXY 2 777 999 (by decide) (by decide)
    (by decide) (by decide) (by decide) (by decide) (by decide) (by decide)

/-- Witness for C10's amended theorem on a fresh ledger. -/
theorem C10_empty_entries_succeeds_witness :
    Ledger.record_transaction emptyLedger tx0 [] =
      ({ emptyLedger with
          transactionsFile := emptyLedger.transactionsFile ++ transactionBytes tx0,
          transaction_index :=
            mapInsert (genUuidOfUuid tx0.id) emptyLedger.transactionsFile.length
              emptyLedger.transaction_index,
          transactions := mapInsert tx0.id tx0 emptyLedger.transactions }, .ok ()) :=
  C10_empty_entries_succeeds emptyLedger tx0 (by decide)

end ZentryDB
